import Mathlib

/-!
Verification development for the chat application's session / presence /
routing core (Node server: `socketHandlers.js`, `index.js`, `models/User.js`
Room model).  The server state (`userSockets`, `connectedSockets`,
`activeChats`), the persistent collections (users, rooms, messages) and the
socket event handlers are embedded shallowly: JavaScript `Map`s become
functions or association lists, `Set`s become `Finset String`, MongoDB
queries become list searches, and every nondeterministic input (generated
ids, clock readings, concurrent save outcomes) becomes an explicit
parameter.  Socket emissions are collected in an event list.
-/

set_option linter.unusedVariables false

/-! ## Persistent documents (MongoDB collections) -/

/-- A user document (`models/User.js`): the fields touched by the session
layer (`status`, `statusMessage`, `lastSeen`, plus `username` for display). -/
structure UserDoc where
  username : String
  status : String
  statusMessage : String
  lastSeen : Nat
deriving DecidableEq

/-- A room document (`models/Room.js`): `rid` models the MongoDB `_id`
string, `rtype` the `type` field (`"public"` / `"direct"`), `name` is only
present for public rooms, `participants` only populated for direct rooms. -/
structure RoomDoc where
  rid : String
  rtype : String
  name : Option String
  displayName : Option String
  participants : List String
  lastActivity : Nat
deriving DecidableEq

/-- A message document (`models/Message.js` usage in `socketHandlers.js`):
sender user id, owning room id (`chat`), text, creation timestamp. -/
structure MessageDoc where
  sender : String
  chat : String
  text : String
  createdAt : Nat
deriving DecidableEq

/-! ## In-memory per-process state (`index.js`) -/

/-- Per-socket session data (`connectedSockets` map values).  The source
keeps two fields `currentChatId` / `currentChatType` that are always set and
cleared together; they are modelled as one optional pair
`(currentChatId, currentChatType)`.  `cachedStatus` models the `status`
field of the `socket.user` snapshot attached by the auth middleware. -/
structure SocketData where
  userId : String
  cachedStatus : String
  currentChat : Option (String × String)
deriving DecidableEq

/-- An `activeChats` map entry: display name, chat type (`"room"` /
`"direct"`), backing DB id, and the set of user ids currently counted as
members. -/
structure ChatInfo where
  name : String
  ctype : String
  dbId : String
  members : Finset String
deriving DecidableEq

/-- Observable socket emissions of the handlers, in emission order.
`presence` is the `broadcastPresenceUpdate` fan-out of `index.js` and
carries the set of *user ids* it targets (each target user receives the
payload on every live connection); `roomPresence` is the room-scoped
`socket.to(chatId).emit('presence update', ...)` inside `joinSocketToChat`. -/
inductive Ev where
  | errMsg (target : String) (msg : String)
  | joinedChat (target : String) (chatId : String) (isNew : Bool)
  | userList (chatId : String)
  | roomPresence (chatId : String) (about : String) (status : String)
  | stopTyping (chatId : String) (about : String)
  | chatMsg (chatId : String) (text : String) (sender : String)
  | dmListUpdate (toUser : String)
  | presence (about : String) (status : String) (targets : Finset String)
deriving DecidableEq

/-! ## Association-list operations for the `activeChats` map -/

/-- `activeChats.get k` on the association list (insertion order, first
matching key). -/
def lookupChat : List (String × ChatInfo) → String → Option ChatInfo
  | [], _ => none
  | p :: rest, k => if p.1 = k then some p.2 else lookupChat rest k

/-- In-place mutation of the entry with key `k` (models mutating the object
returned by `activeChats.get(k)`). -/
def modifyChat : List (String × ChatInfo) → String → (ChatInfo → ChatInfo) → List (String × ChatInfo)
  | [], _, _ => []
  | p :: rest, k, f => (if p.1 = k then (p.1, f p.2) else p) :: modifyChat rest k f

/-! ## Validation helpers -/

/-- One character of the room-name pattern `[a-z0-9-_]`. -/
def isRoomNameChar (c : Char) : Bool :=
  ('a' ≤ c && c ≤ 'z') || ('0' ≤ c && c ≤ '9') || c = '-' || c = '_'

/-- The join-chat handler's room-name check: it rejects when
`length < 3 || length > 20 || !/^[a-z0-9-_]+$/.test(name)`; this predicate
is the acceptance condition (the regex's nonemptiness is subsumed by the
length bound). -/
def validRoomName (name : String) : Bool :=
  3 ≤ name.length && name.length ≤ 20 && name.toList.all isRoomNameChar

/-- One hexadecimal character. -/
def isHexChar (c : Char) : Bool :=
  c.isDigit || ('a' ≤ c && c ≤ 'f') || ('A' ≤ c && c ≤ 'F')

/-- Shallow model of `mongoose.Types.ObjectId.isValid`: a 24-character hex
string (the alternative 12-byte-string acceptance is not modelled). -/
def isValidObjectId (s : String) : Bool :=
  s.length = 24 && s.toList.all isHexChar

/-- Model of JavaScript `String.prototype.slice(0, n)`, by characters. -/
def sliceChars (s : String) (n : Nat) : String :=
  String.mk (s.toList.take n)

/-- `name.charAt(0).toUpperCase() + name.slice(1)`. -/
def capitalizeFirst (s : String) : String :=
  match s.toList with
  | [] => ""
  | c :: rest => String.mk (c.toUpper :: rest)

/-! ## Direct-conversation resolver (`Room.findOrCreateDirectMessage`) -/

/-- Lexicographic comparison of character lists (by code point), used to
model the default JavaScript string ordering. -/
def charListLt : List Char → List Char → Bool
  | [], [] => false
  | [], _ :: _ => true
  | _ :: _, [] => false
  | c :: cs, d :: ds =>
    if c.toNat < d.toNat then true
    else if d.toNat < c.toNat then false
    else charListLt cs ds

/-- JavaScript `[a, b].sort()` for two distinct strings (lexicographic). -/
def sortPair (a b : String) : List String :=
  if charListLt b.toList a.toList then [b, a] else [a, b]

/-- The `findOne({type:'direct', participants:{$all: ps, $size: 2}})`
selector: a direct room whose participant array contains every id of `ps`
and has exactly two entries. -/
def isDirectWith (ps : List String) (r : RoomDoc) : Bool :=
  r.rtype = "direct" && ps.all (fun u => r.participants.contains u) &&
    r.participants.length = 2

/-- First room matching the direct-pair selector. -/
def findDirectRoom (db : List RoomDoc) (ps : List String) : Option RoomDoc :=
  db.find? (isDirectWith ps)

/-- Failure classes of the resolver: the self-pair rejection, the
give-up error after a failed duplicate-key re-query, and any other database
error rethrown by the save. -/
inductive DmError where
  | invalidPair
  | inconsistentState
  | dbError (msg : String)
deriving DecidableEq

/-- Outcome of the `dmRoom.save()` call, supplied as a parameter: success,
a duplicate-key failure (error code 11000) together with the database
contents visible to the subsequent re-query, or another error. -/
inductive SaveOutcome where
  | ok
  | dupKey (dbAtRetry : List RoomDoc)
  | otherErr (msg : String)

/-- The direct room document built by the resolver's create path: no name,
the sorted participant pair, a fresh activity timestamp. -/
def newDmRoom (newId : String) (now : Nat) (u1 u2 : String) : RoomDoc :=
  { rid := newId
    rtype := "direct"
    name := none
    displayName := none
    participants := sortPair u1 u2
    lastActivity := now }

/-- `Room.findOrCreateDirectMessage(userId1, userId2)`.  Returns the
database after the call, the resolved room and the `isNew` flag.  The
`outcome` parameter resolves what `save()` does when a create is attempted. -/
def findOrCreateDirectMessage (db : List RoomDoc) (outcome : SaveOutcome)
    (newId : String) (now : Nat) (u1 u2 : String) :
    Except DmError (List RoomDoc × RoomDoc × Bool) :=
  if u1 = u2 then .error .invalidPair
  else
    let ps := sortPair u1 u2
    match findDirectRoom db ps with
    | some r => .ok (db, r, false)
    | none =>
      let newRoom : RoomDoc := newDmRoom newId now u1 u2
      match outcome with
      | .ok => .ok (db ++ [newRoom], newRoom, true)
      | .dupKey dbAtRetry =>
        match findDirectRoom dbAtRetry ps with
        | some r => .ok (dbAtRetry, r, false)
        | none => .error .inconsistentState
      | .otherErr m => .error (.dbError m)

/-! ## Room queries used by the handlers -/

/-- `Room.findOne({ type: 'public', name })`. -/
def findPublicRoom (db : List RoomDoc) (name : String) : Option RoomDoc :=
  db.find? (fun r => r.rtype = "public" && r.name = some name)

/-- `Room.findById(rid)`. -/
def findRoomById (db : List RoomDoc) (rid : String) : Option RoomDoc :=
  db.find? (fun r => r.rid = rid)

/-! ## Message history (`getRecentMessages`) -/

/-- `MAX_MESSAGE_LENGTH` in `socketHandlers.js`. -/
def MAX_MESSAGE_LENGTH : Nat := 1000

/-- `MESSAGE_HISTORY_LIMIT` (default value of the env variable). -/
def MESSAGE_HISTORY_LIMIT : Nat := 50

/-- The `.sort({ createdAt: -1 })` comparison: newest first. -/
def newestFirst (a b : MessageDoc) : Bool :=
  decide (b.createdAt ≤ a.createdAt)

/-- `getRecentMessages`: filter the chat's messages, sort newest first,
limit to `MESSAGE_HISTORY_LIMIT`, then reverse into chronological order. -/
def getRecentMessages (db : List MessageDoc) (chatDbId : String) : List MessageDoc :=
  (((db.filter (fun m => m.chat = chatDbId)).mergeSort newestFirst).take
    MESSAGE_HISTORY_LIMIT).reverse

/-! ## The server state -/

/-- The shared in-memory state of `index.js` together with the persistent
collections the handlers read and write. -/
structure Sys where
  userSockets : String → Finset String
  connectedSockets : String → Option SocketData
  activeChats : List (String × ChatInfo)
  roomsDb : List RoomDoc
  usersDb : String → Option UserDoc
  messagesDb : List MessageDoc

/-- `broadcastPresenceUpdate`'s target computation: the union, over every
active chat whose member set contains `userId`, of the other members. -/
def usersToNotify (chats : List (String × ChatInfo)) (userId : String) : Finset String :=
  chats.foldl
    (fun acc p => if userId ∈ p.2.members then acc ∪ p.2.members.erase userId else acc) ∅

/-- Socket-level delivery of a presence broadcast: every live connection of
every targeted user. -/
def presenceDeliverySockets (chats : List (String × ChatInfo))
    (userSockets : String → Finset String) (userId : String) : Finset String :=
  (usersToNotify chats userId).biUnion userSockets

/-! ## Handler helpers (`socketHandlers.js`) -/

/-- `leaveCurrentChat`: no-op when the socket is unknown or unattached;
otherwise remove the user from the current chat's member set (when the
chat has an `activeChats` entry), emit a member-list update for a public
room that still has members, clear the attachment, and emit the
`stop typing` signal into the left chat. -/
def leaveCurrentChat (s : Sys) (sock : String) : Sys × List Ev :=
  match s.connectedSockets sock with
  | none => (s, [])
  | some sd =>
    match sd.currentChat with
    | none => (s, [])
    | some (chatId, chatType) =>
      let res : List (String × ChatInfo) × List Ev :=
        match lookupChat s.activeChats chatId with
        | none => (s.activeChats, [])
        | some info =>
          (modifyChat s.activeChats chatId
             (fun i => { i with members := i.members.erase sd.userId }),
           if chatType = "room" ∧ info.members.erase sd.userId ≠ ∅ then
             [Ev.userList chatId]
           else [])
      let cs := fun x =>
        if x = sock then some { sd with currentChat := none } else s.connectedSockets x
      ({ s with activeChats := res.1, connectedSockets := cs },
       res.2 ++ [Ev.stopTyping chatId sd.userId])

/-- `joinSocketToChat`: record the attachment on the socket, lazily create
the `activeChats` entry, add the user to the member set, and for public
rooms broadcast the member list and the joining user's presence (the cached
snapshot status, defaulted to `online` when falsy). -/
def joinSocketToChat (s : Sys) (sock chatId chatType chatName chatDbId : String) :
    Sys × List Ev :=
  match s.connectedSockets sock with
  | none => (s, [])
  | some sd =>
    let cs := fun x =>
      if x = sock then some { sd with currentChat := some (chatId, chatType) }
      else s.connectedSockets x
    let chats0 :=
      if (lookupChat s.activeChats chatId).isSome then s.activeChats
      else s.activeChats ++
        [(chatId, { name := chatName, ctype := chatType, dbId := chatDbId, members := ∅ })]
    let chats := modifyChat chats0 chatId
      (fun i => { i with members := insert sd.userId i.members })
    let evs :=
      if chatType = "room" then
        [Ev.userList chatId,
         Ev.roomPresence chatId sd.userId
           (if sd.cachedStatus = "" then "online" else sd.cachedStatus)]
      else []
    ({ s with connectedSockets := cs, activeChats := chats }, evs)

/-- The join confirmation sent after a successful attach: `joinSocketToChat`
followed by the `joined chat` emission to the requesting socket. -/
def joinRespond (s : Sys) (sock chatIdForClient chatType chatName chatDbId : String)
    (isNew : Bool) : Sys × List Ev :=
  let r := joinSocketToChat s sock chatIdForClient chatType chatName chatDbId
  (r.1, r.2 ++ [Ev.joinedChat sock chatIdForClient isNew])

/-! ## Socket event handlers as state transitions -/

/-- The `connection` handler of `index.js` plus `handleUserConnect`:
register the socket, and on the identity's first live connection persist
status `online` and run the presence broadcast. -/
def stepConnect (s : Sys) (sock userId : String) (now : Nat) : Sys × List Ev :=
  if (s.connectedSockets sock).isSome then (s, [])
  else
    match s.usersDb userId with
    | none => (s, [])
    | some doc =>
      let us := fun x =>
        if x = userId then insert sock (s.userSockets userId) else s.userSockets x
      let cs := fun x =>
        if x = sock then
          some { userId := userId, cachedStatus := doc.status, currentChat := none }
        else s.connectedSockets x
      let s1 : Sys := { s with userSockets := us, connectedSockets := cs }
      if (s1.userSockets userId).card = 1 then
        let ud := fun x =>
          if x = userId then some { doc with status := "online", lastSeen := now }
          else s.usersDb x
        let s2 : Sys := { s1 with usersDb := ud }
        (s2, [Ev.presence userId "online" (usersToNotify s2.activeChats userId)])
      else (s1, [])

/-- The `join chat` handler, `type: 'room'` branch.  The payload null-check
precedes everything; `leaveCurrentChat` runs *before* the room is resolved,
so a later rejection (malformed name) leaves the connection detached. -/
def stepJoinRoom (s : Sys) (sock name newRoomId : String) (now : Nat) : Sys × List Ev :=
  match s.connectedSockets sock with
  | none => (s, [])
  | some _ =>
    if name = "" then (s, [Ev.errMsg sock "Invalid join request data."])
    else
      let l := leaveCurrentChat s sock
      let s1 := l.1
      match findPublicRoom s1.roomsDb name with
      | some room =>
        let r := joinRespond s1 sock name "room" (room.displayName.getD "") room.rid false
        (r.1, l.2 ++ r.2)
      | none =>
        if validRoomName name = false then
          (s1, l.2 ++
            [Ev.errMsg sock
              "Invalid room name format. Use lowercase letters, numbers, -, _ (3-20 chars)."])
        else
          let room : RoomDoc :=
            { rid := newRoomId
              rtype := "public"
              name := some name
              displayName := some (capitalizeFirst name)
              participants := []
              lastActivity := now }
          let s2 : Sys := { s1 with roomsDb := s1.roomsDb ++ [room] }
          let r := joinRespond s2 sock name "room" (capitalizeFirst name) newRoomId true
          (r.1, l.2 ++ r.2)

/-- The `join chat` handler, `type: 'direct'` branch: after the payload
check and `leaveCurrentChat`, validate the id, look the room up, require it
to be direct and the requester to be a participant, resolve the partner's
user document for the display name, then attach. -/
def stepJoinDirect (s : Sys) (sock roomId : String) : Sys × List Ev :=
  match s.connectedSockets sock with
  | none => (s, [])
  | some sd =>
    if roomId = "" then (s, [Ev.errMsg sock "Invalid join request data."])
    else
      let l := leaveCurrentChat s sock
      let s1 := l.1
      if isValidObjectId roomId = false then
        (s1, l.2 ++ [Ev.errMsg sock "Invalid DM identifier format."])
      else
        match findRoomById s1.roomsDb roomId with
        | none => (s1, l.2 ++ [Ev.errMsg sock "Direct message chat not found."])
        | some room =>
          if room.rtype ≠ "direct" then
            (s1, l.2 ++ [Ev.errMsg sock "Direct message chat not found."])
          else if room.participants.contains sd.userId = false then
            (s1, l.2 ++ [Ev.errMsg sock "Not authorized for this direct message."])
          else
            match (room.participants.filter (fun p => p ≠ sd.userId)).head? with
            | none => (s1, l.2 ++ [Ev.errMsg sock "Error identifying DM partner."])
            | some otherId =>
              match s1.usersDb otherId with
              | none => (s1, l.2 ++ [Ev.errMsg sock "Error identifying DM partner."])
              | some otherDoc =>
                let r := joinRespond s1 sock roomId "direct" otherDoc.username roomId false
                (r.1, l.2 ++ r.2)

/-- The `initiate dm` handler: validations, resolver call, then —
*before* leaving the current chat — the `activeChats` entry for the DM is
created or refreshed with *both* participants in its member set; finally
the initiator leaves its chat, attaches to the DM, and the target's live
connections are notified. -/
def stepInitiateDm (s : Sys) (sock targetUserId newRoomId : String) (now : Nat) :
    Sys × List Ev :=
  match s.connectedSockets sock with
  | none => (s, [])
  | some sd =>
    if targetUserId = "" ∨ targetUserId = sd.userId then
      (s, [Ev.errMsg sock "Invalid target user for DM."])
    else if isValidObjectId targetUserId = false then
      (s, [Ev.errMsg sock "Invalid target user ID format."])
    else
      match s.usersDb targetUserId with
      | none => (s, [Ev.errMsg sock "The user you tried to message does not exist."])
      | some targetDoc =>
        match findOrCreateDirectMessage s.roomsDb .ok newRoomId now sd.userId targetUserId with
        | .error _ => (s, [Ev.errMsg sock "Failed to start DM."])
        | .ok (db2, dmRoom, isNew) =>
          let dmRoomId := dmRoom.rid
          let s2 : Sys := { s with roomsDb := db2 }
          let chats :=
            match lookupChat s2.activeChats dmRoomId with
            | none =>
              s2.activeChats ++
                [(dmRoomId,
                  { name := targetDoc.username
                    ctype := "direct"
                    dbId := dmRoomId
                    members := insert targetUserId (insert sd.userId ∅) })]
            | some _ =>
              modifyChat s2.activeChats dmRoomId
                (fun i => { i with members := insert targetUserId (insert sd.userId i.members) })
          let s3 : Sys := { s2 with activeChats := chats }
          let l := leaveCurrentChat s3 sock
          let r := joinRespond l.1 sock dmRoomId "direct" targetDoc.username dmRoomId isNew
          let notifyTarget :=
            if s.userSockets targetUserId ≠ ∅ then [Ev.dmListUpdate targetUserId] else []
          (r.1, l.2 ++ r.2 ++ notifyTarget)

/-- The `chat message` handler: reject when unattached, when the target
chat mismatches the current attachment, or when the trimmed text is empty
or over `MAX_MESSAGE_LENGTH`; otherwise resolve the DB id (from
`activeChats`, falling back to a re-query), persist the message, bump the
room's `lastActivity`, broadcast into the chat and refresh DM summaries. -/
def stepChatMessage (s : Sys) (sock chatType chatId text : String) (now : Nat) :
    Sys × List Ev :=
  match s.connectedSockets sock with
  | none => (s, [])
  | some sd =>
    match sd.currentChat with
    | none => (s, [Ev.errMsg sock "Cannot send message: You are not currently in a chat."])
    | some (curId, curType) =>
      if chatType ≠ curType ∨ chatId ≠ curId then
        (s, [Ev.errMsg sock "Message target mismatch. Please rejoin the chat."])
      else
        let messageText := text.trim
        if messageText = "" ∨ MAX_MESSAGE_LENGTH < messageText.length then
          (s, [Ev.errMsg sock "Message is empty or too long (max 1000 chars)."])
        else
          let dbIdRes : Option String :=
            match lookupChat s.activeChats curId with
            | some info => some info.dbId
            | none =>
              match
                (if curType = "room" then findPublicRoom s.roomsDb curId
                 else findRoomById s.roomsDb curId) with
              | some room => some room.rid
              | none => none
          match dbIdRes with
          | none => (s, [Ev.errMsg sock "Server error: Could not send your message."])
          | some chatDbId =>
            let msg : MessageDoc :=
              { sender := sd.userId, chat := chatDbId, text := messageText, createdAt := now }
            let rooms := s.roomsDb.map
              (fun r => if r.rid = chatDbId then { r with lastActivity := now } else r)
            let updatedRoom := findRoomById s.roomsDb chatDbId
            let s2 : Sys := { s with messagesDb := s.messagesDb ++ [msg], roomsDb := rooms }
            let dmEvs :=
              match updatedRoom with
              | some room =>
                if curType = "direct" then
                  room.participants.filterMap
                    (fun p => if s.userSockets p ≠ ∅ then some (Ev.dmListUpdate p) else none)
                else []
              | none => []
            (s2, [Ev.chatMsg curId messageText sd.userId] ++ dmEvs)

/-- The accepted statuses of the `set status` handler; `offline` is
deliberately absent (it is reserved for the disconnect path). -/
def validStatuses : List String := ["online", "away", "dnd"]

/-- The `set status` handler: an absent/empty status is rejected as invalid
data; otherwise the status is coerced into `validStatuses` (default
`online`), the status message trimmed and cut to 60 characters, both are
persisted, the socket's cached snapshot refreshed, and a presence broadcast
issued. -/
def stepSetStatus (s : Sys) (sock status statusMessage : String) (now : Nat) :
    Sys × List Ev :=
  match s.connectedSockets sock with
  | none => (s, [])
  | some sd =>
    if status = "" then (s, [Ev.errMsg sock "Invalid status update data."])
    else
      let newStatus := if validStatuses.contains status then status else "online"
      let newStatusMessage := sliceChars statusMessage.trim 60
      match s.usersDb sd.userId with
      | none => (s, [Ev.errMsg sock "Failed to update status: User not found."])
      | some doc =>
        let ud := fun x =>
          if x = sd.userId then
            some { doc with
                     status := newStatus
                     statusMessage := newStatusMessage
                     lastSeen := now }
          else s.usersDb x
        let cs := fun x =>
          if x = sock then some { sd with cachedStatus := newStatus }
          else s.connectedSockets x
        let s2 : Sys := { s with usersDb := ud, connectedSockets := cs }
        (s2, [Ev.presence sd.userId newStatus (usersToNotify s2.activeChats sd.userId)])

/-- The `disconnect` handler: leave the current chat, remove the socket
from the registry, and — exactly when this was the identity's last live
connection and the user document still exists — persist status `offline`
and run the presence broadcast. -/
def stepDisconnect (s : Sys) (sock : String) (now : Nat) : Sys × List Ev :=
  match s.connectedSockets sock with
  | none => (s, [])
  | some sd =>
    let userId := sd.userId
    let l := leaveCurrentChat s sock
    let s1 := l.1
    let ss := s1.userSockets userId
    let us := fun x => if x = userId then ss.erase sock else s1.userSockets x
    let cs := fun x => if x = sock then none else s1.connectedSockets x
    let s2 : Sys := { s1 with userSockets := us, connectedSockets := cs }
    if ss ≠ ∅ ∧ ss.erase sock = ∅ then
      match s2.usersDb userId with
      | some doc =>
        let ud := fun x =>
          if x = userId then some { doc with status := "offline", lastSeen := now }
          else s2.usersDb x
        let s3 : Sys := { s2 with usersDb := ud }
        (s3, l.2 ++ [Ev.presence userId "offline" (usersToNotify s3.activeChats userId)])
      | none => (s2, l.2)
    else (s2, l.2)

/-! ## Operations and traces -/

/-- One incoming socket event.  Ids generated by MongoDB and clock readings
are explicit parameters. -/
inductive Op where
  | connect (sock userId : String) (now : Nat)
  | joinRoom (sock name newRoomId : String) (now : Nat)
  | joinDirect (sock roomId : String)
  | initiateDm (sock targetUserId newRoomId : String) (now : Nat)
  | chatMessage (sock chatType chatId text : String) (now : Nat)
  | setStatus (sock status statusMessage : String) (now : Nat)
  | disconnect (sock : String) (now : Nat)

/-- Dispatch one event to its handler. -/
def step (s : Sys) : Op → Sys × List Ev
  | .connect sock u now => stepConnect s sock u now
  | .joinRoom sock name newRoomId now => stepJoinRoom s sock name newRoomId now
  | .joinDirect sock roomId => stepJoinDirect s sock roomId
  | .initiateDm sock target newRoomId now => stepInitiateDm s sock target newRoomId now
  | .chatMessage sock ctype cid text now => stepChatMessage s sock ctype cid text now
  | .setStatus sock st msg now => stepSetStatus s sock st msg now
  | .disconnect sock now => stepDisconnect s sock now

/-- Run a trace of events. -/
def runOps (s : Sys) : List Op → Sys
  | [] => s
  | op :: rest => runOps (step s op).1 rest

/-- Server start state: no sockets, empty membership cache, given
persistent collections. -/
def initSys (users : String → Option UserDoc) (rooms : List RoomDoc) : Sys :=
  { userSockets := fun _ => ∅
    connectedSockets := fun _ => none
    activeChats := []
    roomsDb := rooms
    usersDb := users
    messagesDb := [] }

/-! ## Invariant statements and trace discipline -/

/-- Every identity owns at most one live connection (the single-connection
discipline under which the membership invariant below holds). -/
def OneConnPerUser (s : Sys) : Prop :=
  ∀ a b sda sdb, s.connectedSockets a = some sda → s.connectedSockets b = some sdb →
    sda.userId = sdb.userId → a = b

/-- Every attached connection's owner is recorded in the member set of the
conversation it is attached to. -/
def AttachedIsMember (s : Sys) : Prop :=
  ∀ sock sd cid cty, s.connectedSockets sock = some sd →
    sd.currentChat = some (cid, cty) →
    ∃ info, lookupChat s.activeChats cid = some info ∧ sd.userId ∈ info.members

/-- Every identity in a member set owns a connection attached to that
conversation. -/
def MemberIsAttached (s : Sys) : Prop :=
  ∀ cid info, lookupChat s.activeChats cid = some info → ∀ u, u ∈ info.members →
    ∃ sock sd cty, s.connectedSockets sock = some sd ∧ sd.userId = u ∧
      sd.currentChat = some (cid, cty)

def SessionInv (s : Sys) : Prop :=
  OneConnPerUser s ∧ AttachedIsMember s ∧ MemberIsAttached s

/-- Trace discipline for the amended membership invariant: a `connect` may
only register an identity with no other live connection, and the
`initiate dm` event (which seeds both participants into the DM member set
regardless of attachment) is excluded. -/
def okOp (s : Sys) : Op → Prop
  | .connect _ u _ => ∀ x sdx, s.connectedSockets x = some sdx → sdx.userId ≠ u
  | .initiateDm _ _ _ _ => False
  | _ => True

/-- States reachable from server start by traces obeying `okOp`. -/
inductive ReachableOk (users : String → Option UserDoc) (rooms : List RoomDoc) : Sys → Prop
  | base : ReachableOk users rooms (initSys users rooms)
  | next (s : Sys) (op : Op) : ReachableOk users rooms s → okOp s op →
      ReachableOk users rooms (step s op).1

/-- The membership/attachment correspondence claimed for `activeChats`. -/
def ActiveMembershipMatchesConnections (s : Sys) : Prop :=
  ∀ cid info, lookupChat s.activeChats cid = some info → ∀ u,
    (u ∈ info.members ↔
      ∃ sock sd, s.connectedSockets sock = some sd ∧ sd.userId = u ∧
        ∃ cty, sd.currentChat = some (cid, cty))

/-! ## Concrete example states for witnesses and counterexamples -/

/-- Sample user collection for concrete traces (user ids are 24-character
hex strings, as the ObjectId validity check requires). -/
def exampleUsers : String → Option UserDoc := fun x =>
  if x = "aaaaaaaaaaaaaaaaaaaaaaaa" then
    some { username := "alice", status := "offline", statusMessage := "", lastSeen := 0 }
  else if x = "bbbbbbbbbbbbbbbbbbbbbbbb" then
    some { username := "bob", status := "offline", statusMessage := "", lastSeen := 0 }
  else none

/-- Two connections of the same identity join `general`; one of them then
moves to `library`, which erases the identity from `general`'s member set
although its other connection is still attached there. -/
def c1MultiConnState : Sys :=
  runOps (initSys exampleUsers [])
    [Op.connect "s1" "aaaaaaaaaaaaaaaaaaaaaaaa" 0,
     Op.connect "s2" "aaaaaaaaaaaaaaaaaaaaaaaa" 1,
     Op.joinRoom "s1" "general" "r1" 2,
     Op.joinRoom "s2" "general" "r2" 3,
     Op.joinRoom "s1" "library" "r3" 4]

/-- An identity initiates a DM towards an identity with no live connection:
the target is seeded into the DM member set although none of its
connections is attached there. -/
def c1DmState : Sys :=
  runOps (initSys exampleUsers [])
    [Op.connect "s1" "aaaaaaaaaaaaaaaaaaaaaaaa" 0,
     Op.initiateDm "s1" "bbbbbbbbbbbbbbbbbbbbbbbb" "cccccccccccccccccccccccc" 1]

/-- A single identity with one live connection, attached nowhere. -/
def oneConnState : Sys :=
  runOps (initSys exampleUsers []) [Op.connect "s1" "aaaaaaaaaaaaaaaaaaaaaaaa" 0]

/-- A single identity with one live connection attached to room `general`. -/
def inRoomState : Sys :=
  runOps (initSys exampleUsers [])
    [Op.connect "s1" "aaaaaaaaaaaaaaaaaaaaaaaa" 0,
     Op.joinRoom "s1" "general" "r1" 1]

/-- The identity's persisted status in the database. -/
def statusOf (s : Sys) (u : String) : Option String :=
  (s.usersDb u).map (fun d => d.status)

/-- A small message collection for exercising the history query. -/
def exampleMessages : List MessageDoc :=
  [{ sender := "a", chat := "c1", text := "m1", createdAt := 5 },
   { sender := "b", chat := "c1", text := "m2", createdAt := 2 },
   { sender := "a", chat := "c2", text := "m3", createdAt := 9 },
   { sender := "b", chat := "c1", text := "m4", createdAt := 7 }]

/-! ## Basic lemmas about the map operations -/

theorem lookupChat_modify (l : List (String × ChatInfo)) (k k' : String)
    (f : ChatInfo → ChatInfo) :
    lookupChat (modifyChat l k f) k' =
      if k' = k then (lookupChat l k').map f else lookupChat l k' := by
  induction l with
  | nil => simp [modifyChat, lookupChat]
  | cons p rest ih =>
    simp only [modifyChat]
    by_cases hpk : p.1 = k
    · simp only [if_pos hpk, lookupChat]
      by_cases hk' : k' = k
      · subst hk'
        simp [hpk, lookupChat]
      · have h1 : ¬ p.1 = k' := by
          rw [hpk]
          exact fun hh => hk' hh.symm
        have h3 : ¬ k = k' := fun hh => hk' hh.symm
        simp [h1, ih, hk', hpk, h3, lookupChat]
    · simp only [if_neg hpk, lookupChat]
      by_cases hpk' : p.1 = k'
      · have h2 : ¬ k' = k := fun hh => hpk (hpk'.trans hh)
        simp [hpk', h2]
      · simp [hpk', ih]

theorem lookupChat_append_single (l : List (String × ChatInfo)) (k0 k : String)
    (v : ChatInfo) :
    lookupChat (l ++ [(k0, v)]) k =
      match lookupChat l k with
      | some x => some x
      | none => if k0 = k then some v else none := by
  induction l with
  | nil => simp [lookupChat]
  | cons p rest ih =>
    by_cases hp : p.1 = k
    · simp [lookupChat, hp]
    · simp [lookupChat, hp, ih]

/-! ## Characterizing the presence fan-out -/

theorem mem_usersToNotify_aux (chats : List (String × ChatInfo)) (u v : String)
    (acc : Finset String) :
    (v ∈ chats.foldl
        (fun acc p => if u ∈ p.2.members then acc ∪ p.2.members.erase u else acc) acc) ↔
      v ∈ acc ∨ (v ≠ u ∧ ∃ p, p ∈ chats ∧ u ∈ p.2.members ∧ v ∈ p.2.members) := by
  induction chats generalizing acc with
  | nil => simp
  | cons q rest ih =>
    simp only [List.foldl_cons]
    rw [ih]
    by_cases hq : u ∈ q.2.members
    · simp only [hq, if_pos, Finset.mem_union, Finset.mem_erase, List.mem_cons]
      constructor
      · rintro (((hv | ⟨hne, hv⟩) | ⟨hne, p, hp, hup, hvp⟩))
        · exact Or.inl hv
        · exact Or.inr ⟨hne, q, Or.inl rfl, hq, hv⟩
        · exact Or.inr ⟨hne, p, Or.inr hp, hup, hvp⟩
      · rintro (hv | ⟨hne, p, (rfl | hp), hup, hvp⟩)
        · exact Or.inl (Or.inl hv)
        · exact Or.inl (Or.inr ⟨hne, hvp⟩)
        · exact Or.inr ⟨hne, p, hp, hup, hvp⟩
    · simp only [hq, if_neg, List.mem_cons]
      constructor
      · rintro (hv | ⟨hne, p, hp, hup, hvp⟩)
        · exact Or.inl hv
        · exact Or.inr ⟨hne, p, Or.inr hp, hup, hvp⟩
      · rintro (hv | ⟨hne, p, (rfl | hp), hup, hvp⟩)
        · exact Or.inl hv
        · exact absurd hup hq
        · exact Or.inr ⟨hne, p, hp, hup, hvp⟩

theorem mem_usersToNotify (chats : List (String × ChatInfo)) (u v : String) :
    v ∈ usersToNotify chats u ↔
      v ≠ u ∧ ∃ p, p ∈ chats ∧ u ∈ p.2.members ∧ v ∈ p.2.members := by
  unfold usersToNotify
  rw [mem_usersToNotify_aux]
  simp

/-! ## State equations for `leaveCurrentChat` -/

theorem SocketData.clear_of_none (sd : SocketData) (h : sd.currentChat = none) :
    { sd with currentChat := none } = sd := by
  cases sd
  simp_all

theorem modifyChat_of_lookup_none (l : List (String × ChatInfo)) (k : String)
    (f : ChatInfo → ChatInfo) (h : lookupChat l k = none) : modifyChat l k f = l := by
  induction l with
  | nil => rfl
  | cons p rest ih =>
    simp only [lookupChat] at h
    by_cases hp : p.1 = k
    · simp [hp] at h
    · simp only [modifyChat, if_neg hp]
      rw [ih (by simpa [hp] using h)]

theorem leave_of_no_socket (s : Sys) (sock : String)
    (h : s.connectedSockets sock = none) : leaveCurrentChat s sock = (s, []) := by
  unfold leaveCurrentChat
  rw [h]

theorem leave_of_unattached (s : Sys) (sock : String) (sd : SocketData)
    (h : s.connectedSockets sock = some sd) (h2 : sd.currentChat = none) :
    leaveCurrentChat s sock = (s, []) := by
  unfold leaveCurrentChat
  split
  · rfl
  · rename_i sd0 heq
    rw [h] at heq
    injection heq with e
    subst e
    split
    · rfl
    · rename_i cid0 cty0 h2'
      rw [h2] at h2'
      exact Option.noConfusion h2'

theorem leave_frame (s : Sys) (sock : String) :
    (leaveCurrentChat s sock).1.roomsDb = s.roomsDb ∧
    (leaveCurrentChat s sock).1.usersDb = s.usersDb ∧
    (leaveCurrentChat s sock).1.userSockets = s.userSockets ∧
    (leaveCurrentChat s sock).1.messagesDb = s.messagesDb := by
  unfold leaveCurrentChat
  split
  · exact ⟨rfl, rfl, rfl, rfl⟩
  · split
    · exact ⟨rfl, rfl, rfl, rfl⟩
    · exact ⟨rfl, rfl, rfl, rfl⟩

theorem leave_cs_self (s : Sys) (sock : String) :
    (leaveCurrentChat s sock).1.connectedSockets sock =
      (s.connectedSockets sock).map (fun sd => { sd with currentChat := none }) := by
  unfold leaveCurrentChat
  split
  · rename_i heq
    rw [heq]
    rfl
  · rename_i sd heq
    rw [heq]
    split
    · rename_i h2
      simp [SocketData.clear_of_none sd h2, heq]
    · rename_i cid cty h2
      simp

theorem leave_cs_other (s : Sys) (sock x : String) (hx : ¬ x = sock) :
    (leaveCurrentChat s sock).1.connectedSockets x = s.connectedSockets x := by
  unfold leaveCurrentChat
  split
  · rfl
  · split
    · rfl
    · simp [hx]

theorem leave_chats_attached (s : Sys) (sock : String) (sd : SocketData) (cid cty : String)
    (h : s.connectedSockets sock = some sd) (h2 : sd.currentChat = some (cid, cty)) :
    (leaveCurrentChat s sock).1.activeChats =
      modifyChat s.activeChats cid
        (fun i => { i with members := i.members.erase sd.userId }) := by
  unfold leaveCurrentChat
  split
  · rename_i heq
    rw [heq] at h
    exact Option.noConfusion h
  · rename_i sd0 heq
    rw [h] at heq
    injection heq with e
    subst e
    split
    · rename_i h2'
      rw [h2] at h2'
      exact Option.noConfusion h2'
    · rename_i cid0 cty0 h2'
      rw [h2] at h2'
      injection h2' with e2
      injection e2 with e3 e4
      subst e3
      subst e4
      split
      · rename_i h3
        exact (modifyChat_of_lookup_none s.activeChats cid _ h3).symm
      · rfl

theorem leave_lookup (s : Sys) (sock : String) (sd : SocketData) (cid cty : String)
    (h : s.connectedSockets sock = some sd) (h2 : sd.currentChat = some (cid, cty))
    (c : String) :
    lookupChat (leaveCurrentChat s sock).1.activeChats c =
      if c = cid then
        (lookupChat s.activeChats c).map
          (fun i => { i with members := i.members.erase sd.userId })
      else lookupChat s.activeChats c := by
  rw [leave_chats_attached s sock sd cid cty h h2, lookupChat_modify]

theorem leave_events_no_presence (s : Sys) (sock u st : String) (tg : Finset String) :
    Ev.presence u st tg ∉ (leaveCurrentChat s sock).2 := by
  unfold leaveCurrentChat
  split
  · simp
  · split
    · simp
    · split
      · simp
      · split <;> simp

/-! ## State equations for `joinSocketToChat` -/

theorem join_frame (s : Sys) (sock cid cty nm dbid : String) :
    (joinSocketToChat s sock cid cty nm dbid).1.roomsDb = s.roomsDb ∧
    (joinSocketToChat s sock cid cty nm dbid).1.usersDb = s.usersDb ∧
    (joinSocketToChat s sock cid cty nm dbid).1.userSockets = s.userSockets ∧
    (joinSocketToChat s sock cid cty nm dbid).1.messagesDb = s.messagesDb := by
  unfold joinSocketToChat
  split
  · exact ⟨rfl, rfl, rfl, rfl⟩
  · exact ⟨rfl, rfl, rfl, rfl⟩

theorem join_of_no_socket (s : Sys) (sock cid cty nm dbid : String)
    (h : s.connectedSockets sock = none) :
    joinSocketToChat s sock cid cty nm dbid = (s, []) := by
  unfold joinSocketToChat
  rw [h]

theorem join_cs_self (s : Sys) (sock cid cty nm dbid : String) (sd : SocketData)
    (h : s.connectedSockets sock = some sd) :
    (joinSocketToChat s sock cid cty nm dbid).1.connectedSockets sock =
      some { sd with currentChat := some (cid, cty) } := by
  unfold joinSocketToChat
  split
  · rename_i heq
    rw [heq] at h
    exact Option.noConfusion h
  · rename_i sd0 heq
    rw [h] at heq
    injection heq with e
    subst e
    simp

theorem join_cs_other (s : Sys) (sock cid cty nm dbid x : String) (hx : ¬ x = sock) :
    (joinSocketToChat s sock cid cty nm dbid).1.connectedSockets x =
      s.connectedSockets x := by
  unfold joinSocketToChat
  split
  · rfl
  · simp [hx]

theorem join_lookup_self (s : Sys) (sock cid cty nm dbid : String) (sd : SocketData)
    (h : s.connectedSockets sock = some sd) :
    lookupChat (joinSocketToChat s sock cid cty nm dbid).1.activeChats cid =
      some (match lookupChat s.activeChats cid with
            | some i => { i with members := insert sd.userId i.members }
            | none =>
              { name := nm, ctype := cty, dbId := dbid,
                members := insert sd.userId ∅ }) := by
  unfold joinSocketToChat
  split
  · rename_i heq
    rw [heq] at h
    exact Option.noConfusion h
  · rename_i sd0 heq
    rw [h] at heq
    injection heq with e
    subst e
    rw [lookupChat_modify, if_pos rfl]
    rcases h3 : lookupChat s.activeChats cid with _ | info
    · simp only [h3, Option.isSome_none, Bool.false_eq_true, if_false]
      rw [lookupChat_append_single, h3]
      simp
    · simp only [h3, Option.isSome_some, if_true]
      simp

theorem join_lookup_other (s : Sys) (sock cid cty nm dbid c : String)
    (hc : ¬ c = cid) :
    lookupChat (joinSocketToChat s sock cid cty nm dbid).1.activeChats c =
      lookupChat s.activeChats c := by
  unfold joinSocketToChat
  split
  · rfl
  · rw [lookupChat_modify, if_neg hc]
    split
    · rfl
    · rw [lookupChat_append_single]
      rcases h4 : lookupChat s.activeChats c with _ | x
      · have h5 : ¬ cid = c := fun hh => hc hh.symm
        simp [h5]
      · simp

theorem join_events_no_presence (s : Sys) (sock cid cty nm dbid u st : String)
    (tg : Finset String) :
    Ev.presence u st tg ∉ (joinSocketToChat s sock cid cty nm dbid).2 := by
  unfold joinSocketToChat
  split
  · simp
  · split <;> simp

theorem joinRespond_events_no_presence (s : Sys) (sock cid cty nm dbid u st : String)
    (isNew : Bool) (tg : Finset String) :
    Ev.presence u st tg ∉ (joinRespond s sock cid cty nm dbid isNew).2 := by
  unfold joinRespond
  simp [join_events_no_presence]

theorem joinRespond_frame (s : Sys) (sock cid cty nm dbid : String) (isNew : Bool) :
    (joinRespond s sock cid cty nm dbid isNew).1 =
      (joinSocketToChat s sock cid cty nm dbid).1 := by
  rfl

/-! ## The session invariant relating membership sets to attachments -/

theorem oneConn_of_pointwise (s t : Sys)
    (hx : ∀ x sdx, t.connectedSockets x = some sdx →
        ∃ sx, s.connectedSockets x = some sx ∧ sx.userId = sdx.userId)
    (h1 : OneConnPerUser s) : OneConnPerUser t := by
  intro a b sda sdb ha hb hab
  obtain ⟨sa, hsa, ea⟩ := hx a sda ha
  obtain ⟨sb, hsb, eb⟩ := hx b sdb hb
  refine h1 a b sa sb hsa hsb ?_
  rw [ea, eb]
  exact hab

theorem leave_cs_pointwise (s : Sys) (sock : String) :
    ∀ x sdx, (leaveCurrentChat s sock).1.connectedSockets x = some sdx →
      ∃ sx, s.connectedSockets x = some sx ∧ sx.userId = sdx.userId := by
  intro x sdx hxx
  by_cases hxs : x = sock
  · subst hxs
    rw [leave_cs_self] at hxx
    rcases hs : s.connectedSockets x with _ | sx
    · rw [hs] at hxx
      exact Option.noConfusion hxx
    · rw [hs] at hxx
      injection hxx with e
      refine ⟨sx, rfl, ?_⟩
      rw [← e]
  · rw [leave_cs_other s sock x hxs] at hxx
    exact ⟨sdx, hxx, rfl⟩

theorem join_cs_pointwise (s : Sys) (sock cid cty nm dbid : String) :
    ∀ x sdx, (joinSocketToChat s sock cid cty nm dbid).1.connectedSockets x = some sdx →
      ∃ sx, s.connectedSockets x = some sx ∧ sx.userId = sdx.userId := by
  intro x sdx hxx
  by_cases hxs : x = sock
  · subst hxs
    rcases hs : s.connectedSockets x with _ | sx
    · rw [join_of_no_socket s x cid cty nm dbid hs] at hxx
      rw [hs] at hxx
      exact Option.noConfusion hxx
    · rw [join_cs_self s x cid cty nm dbid sx hs] at hxx
      injection hxx with e
      refine ⟨sx, rfl, ?_⟩
      rw [← e]
  · rw [join_cs_other s sock cid cty nm dbid x hxs] at hxx
    exact ⟨sdx, hxx, rfl⟩

theorem sessionInv_leave (s : Sys) (sock : String) (h : SessionInv s) :
    SessionInv (leaveCurrentChat s sock).1 := by
  rcases hcs : s.connectedSockets sock with _ | sd
  · rw [leave_of_no_socket s sock hcs]
    exact h
  · rcases hchat : sd.currentChat with _ | ⟨cid, cty⟩
    · rw [leave_of_unattached s sock sd hcs hchat]
      exact h
    · obtain ⟨h1, h2, h3⟩ := h
      have hlk := leave_lookup s sock sd cid cty hcs hchat
      refine ⟨oneConn_of_pointwise s _ (leave_cs_pointwise s sock) h1, ?_, ?_⟩
      · intro sock' sd' cid' cty' ht' hchat'
        by_cases hss : sock' = sock
        · subst hss
          rw [leave_cs_self, hcs] at ht'
          injection ht' with e
          rw [← e] at hchat'
          exact Option.noConfusion hchat'
        · rw [leave_cs_other s sock sock' hss] at ht'
          obtain ⟨info, hinfo, hmem⟩ := h2 sock' sd' cid' cty' ht' hchat'
          by_cases hc : cid' = cid
          · subst hc
            rw [hlk cid', if_pos rfl, hinfo]
            refine ⟨_, rfl, ?_⟩
            have hne : sd'.userId ≠ sd.userId :=
              fun e => hss (h1 sock' sock sd' sd ht' hcs e)
            exact Finset.mem_erase.mpr ⟨hne, hmem⟩
          · rw [hlk cid', if_neg hc]
            exact ⟨info, hinfo, hmem⟩
      · intro cid' info' hinfo' u hu
        rw [hlk cid'] at hinfo'
        by_cases hc : cid' = cid
        · rw [if_pos hc] at hinfo'
          subst hc
          rcases hi : lookupChat s.activeChats cid' with _ | info0
          · rw [hi] at hinfo'
            exact Option.noConfusion hinfo'
          · rw [hi] at hinfo'
            injection hinfo' with e
            rw [← e] at hu
            obtain ⟨hneu, hmem0⟩ := Finset.mem_erase.mp hu
            obtain ⟨sock'', sd'', cty'', hcs'', hid'', hchat''⟩ := h3 cid' info0 hi u hmem0
            have hne'' : ¬ sock'' = sock := by
              intro e2
              rw [e2, hcs] at hcs''
              injection hcs'' with e3
              rw [← e3] at hid''
              exact hneu (hid''.symm ▸ rfl)
            refine ⟨sock'', sd'', cty'', ?_, hid'', hchat''⟩
            rw [leave_cs_other s sock sock'' hne'']
            exact hcs''
        · rw [if_neg hc] at hinfo'
          obtain ⟨sock'', sd'', cty'', hcs'', hid'', hchat''⟩ := h3 cid' info' hinfo' u hu
          have hne'' : ¬ sock'' = sock := by
            intro e2
            rw [e2, hcs] at hcs''
            injection hcs'' with e3
            rw [← e3] at hchat''
            rw [hchat] at hchat''
            injection hchat'' with e4
            injection e4 with e5 e6
            exact hc e5.symm
          refine ⟨sock'', sd'', cty'', ?_, hid'', hchat''⟩
          rw [leave_cs_other s sock sock'' hne'']
          exact hcs''

theorem sessionInv_join (s : Sys) (sock cid cty nm dbid : String) (sd : SocketData)
    (hcs : s.connectedSockets sock = some sd) (hchat : sd.currentChat = none)
    (h : SessionInv s) : SessionInv (joinSocketToChat s sock cid cty nm dbid).1 := by
  obtain ⟨h1, h2, h3⟩ := h
  have hself := join_cs_self s sock cid cty nm dbid sd hcs
  refine ⟨oneConn_of_pointwise s _ (join_cs_pointwise s sock cid cty nm dbid) h1, ?_, ?_⟩
  · intro sock' sd' cid' cty' ht' hchat'
    by_cases hss : sock' = sock
    · rw [hss] at ht'
      rw [hself] at ht'
      injection ht' with e
      rw [← e] at hchat'
      simp only [Option.some.injEq] at hchat'
      obtain ⟨e1, e2⟩ := Prod.mk.injEq .. ▸ hchat'
      rw [← e1]
      rw [join_lookup_self s sock cid cty nm dbid sd hcs]
      refine ⟨_, rfl, ?_⟩
      rw [← e]
      rcases lookupChat s.activeChats cid with _ | info0 <;> simp
    · rw [join_cs_other s sock cid cty nm dbid sock' hss] at ht'
      obtain ⟨info, hinfo, hmem⟩ := h2 sock' sd' cid' cty' ht' hchat'
      by_cases hc : cid' = cid
      · subst hc
        rw [join_lookup_self s sock cid' cty nm dbid sd hcs, hinfo]
        exact ⟨_, rfl, Finset.mem_insert_of_mem hmem⟩
      · rw [join_lookup_other s sock cid cty nm dbid cid' hc]
        exact ⟨info, hinfo, hmem⟩
  · intro cid' info' hinfo' u hu
    by_cases hc : cid' = cid
    · subst hc
      rw [join_lookup_self s sock cid' cty nm dbid sd hcs] at hinfo'
      injection hinfo' with e
      rw [← e] at hu
      rcases hi : lookupChat s.activeChats cid' with _ | info0
      · rw [hi] at hu
        simp at hu
        subst hu
        exact ⟨sock, _, cty, hself, rfl, rfl⟩
      · rw [hi] at hu
        simp only [Finset.mem_insert] at hu
        rcases hu with rfl | hu0
        · exact ⟨sock, _, cty, hself, rfl, rfl⟩
        · obtain ⟨sock'', sd'', cty'', hcs'', hid'', hchat''⟩ := h3 cid' info0 hi u hu0
          have hne : ¬ sock'' = sock := by
            intro e2
            rw [e2, hcs] at hcs''
            injection hcs'' with e3
            rw [← e3] at hchat''
            rw [hchat] at hchat''
            exact Option.noConfusion hchat''
          refine ⟨sock'', sd'', cty'', ?_, hid'', hchat''⟩
          rw [join_cs_other s sock cid' cty nm dbid sock'' hne]
          exact hcs''
    · rw [join_lookup_other s sock cid cty nm dbid cid' hc] at hinfo'
      obtain ⟨sock'', sd'', cty'', hcs'', hid'', hchat''⟩ := h3 cid' info' hinfo' u hu
      have hne : ¬ sock'' = sock := by
        intro e2
        rw [e2, hcs] at hcs''
        injection hcs'' with e3
        rw [← e3] at hchat''
        rw [hchat] at hchat''
        exact Option.noConfusion hchat''
      refine ⟨sock'', sd'', cty'', ?_, hid'', hchat''⟩
      rw [join_cs_other s sock cid cty nm dbid sock'' hne]
      exact hcs''

theorem sessionInv_congr (s t : Sys)
    (hac : t.activeChats = s.activeChats)
    (hcs : ∀ x, (t.connectedSockets x).map (fun sd => (sd.userId, sd.currentChat)) =
                (s.connectedSockets x).map (fun sd => (sd.userId, sd.currentChat)))
    (h : SessionInv s) : SessionInv t := by
  obtain ⟨h1, h2, h3⟩ := h
  have down : ∀ x sdx, t.connectedSockets x = some sdx →
      ∃ sx, s.connectedSockets x = some sx ∧ sx.userId = sdx.userId ∧
        sx.currentChat = sdx.currentChat := by
    intro x sdx hxx
    have hh := hcs x
    rw [hxx] at hh
    rcases hsx : s.connectedSockets x with _ | sx
    · rw [hsx] at hh
      exact Option.noConfusion hh
    · rw [hsx] at hh
      injection hh with e
      obtain ⟨e1, e2⟩ := Prod.mk.injEq .. ▸ e
      exact ⟨sx, rfl, e1.symm, e2.symm⟩
  have up : ∀ x sx, s.connectedSockets x = some sx →
      ∃ sdx, t.connectedSockets x = some sdx ∧ sdx.userId = sx.userId ∧
        sdx.currentChat = sx.currentChat := by
    intro x sx hxx
    have hh := hcs x
    rw [hxx] at hh
    rcases hsx : t.connectedSockets x with _ | sdx
    · rw [hsx] at hh
      exact Option.noConfusion hh
    · rw [hsx] at hh
      injection hh with e
      obtain ⟨e1, e2⟩ := Prod.mk.injEq .. ▸ e
      exact ⟨sdx, rfl, e1, e2⟩
  refine ⟨?_, ?_, ?_⟩
  · intro a b sda sdb ha hb hab
    obtain ⟨sa, hsa, ea, _⟩ := down a sda ha
    obtain ⟨sb, hsb, eb, _⟩ := down b sdb hb
    refine h1 a b sa sb hsa hsb ?_
    rw [ea, eb]
    exact hab
  · intro sock sd cid cty ht hchat
    obtain ⟨sx, hsx, e1, e2⟩ := down sock sd ht
    rw [hchat] at e2
    obtain ⟨info, hinfo, hmem⟩ := h2 sock sx cid cty hsx e2
    rw [hac]
    refine ⟨info, hinfo, ?_⟩
    rw [← e1]
    exact hmem
  · intro cid info hinfo u hu
    rw [hac] at hinfo
    obtain ⟨sock, sx, cty, hsx, hid, hchat⟩ := h3 cid info hinfo u hu
    obtain ⟨sdx, hsdx, e1, e2⟩ := up sock sx hsx
    refine ⟨sock, sdx, cty, hsdx, ?_, ?_⟩
    · rw [e1]
      exact hid
    · rw [e2]
      exact hchat

theorem sessionInv_addSocket (s : Sys) (sock u st : String)
    (hnone : s.connectedSockets sock = none)
    (hok : ∀ x sdx, s.connectedSockets x = some sdx → sdx.userId ≠ u)
    (h : SessionInv s) (t : Sys)
    (hac : t.activeChats = s.activeChats)
    (hcs : t.connectedSockets = fun x =>
        if x = sock then some { userId := u, cachedStatus := st, currentChat := none }
        else s.connectedSockets x) :
    SessionInv t := by
  obtain ⟨h1, h2, h3⟩ := h
  refine ⟨?_, ?_, ?_⟩
  · intro a b sda sdb ha hb hab
    simp only [hcs] at ha hb
    by_cases haS : a = sock <;> by_cases hbS : b = sock
    · rw [haS, hbS]
    · rw [if_pos haS] at ha
      rw [if_neg hbS] at hb
      injection ha with ea
      exfalso
      refine hok b sdb hb ?_
      rw [← hab, ← ea]
    · rw [if_neg haS] at ha
      rw [if_pos hbS] at hb
      injection hb with eb
      exfalso
      refine hok a sda ha ?_
      rw [hab, ← eb]
    · rw [if_neg haS] at ha
      rw [if_neg hbS] at hb
      exact h1 a b sda sdb ha hb hab
  · intro sock' sd' cid' cty' ht' hchat'
    simp only [hcs] at ht'
    by_cases hss : sock' = sock
    · rw [if_pos hss] at ht'
      injection ht' with e
      rw [← e] at hchat'
      exact Option.noConfusion hchat'
    · rw [if_neg hss] at ht'
      rw [hac]
      exact h2 sock' sd' cid' cty' ht' hchat'
  · intro cid' info' hinfo' u' hu'
    rw [hac] at hinfo'
    obtain ⟨sock'', sd'', cty'', hcs'', hid'', hchat''⟩ := h3 cid' info' hinfo' u' hu'
    have hne : ¬ sock'' = sock := by
      intro e2
      rw [e2, hnone] at hcs''
      exact Option.noConfusion hcs''
    refine ⟨sock'', sd'', cty'', ?_, hid'', hchat''⟩
    simp only [hcs]
    rw [if_neg hne]
    exact hcs''

theorem sessionInv_removeSocket (b t : Sys) (sock : String)
    (hac : t.activeChats = b.activeChats)
    (hcs : t.connectedSockets = fun x => if x = sock then none else b.connectedSockets x)
    (hun : ∀ sd, b.connectedSockets sock = some sd → sd.currentChat = none)
    (h : SessionInv b) : SessionInv t := by
  obtain ⟨h1, h2, h3⟩ := h
  refine ⟨?_, ?_, ?_⟩
  · intro a b' sda sdb ha hb hab
    simp only [hcs] at ha hb
    by_cases haS : a = sock
    · rw [if_pos haS] at ha
      exact Option.noConfusion ha
    · by_cases hbS : b' = sock
      · rw [if_pos hbS] at hb
        exact Option.noConfusion hb
      · rw [if_neg haS] at ha
        rw [if_neg hbS] at hb
        exact h1 a b' sda sdb ha hb hab
  · intro sock' sd' cid' cty' ht' hchat'
    simp only [hcs] at ht'
    by_cases hss : sock' = sock
    · rw [if_pos hss] at ht'
      exact Option.noConfusion ht'
    · rw [if_neg hss] at ht'
      rw [hac]
      exact h2 sock' sd' cid' cty' ht' hchat'
  · intro cid' info' hinfo' u' hu'
    rw [hac] at hinfo'
    obtain ⟨sock'', sd'', cty'', hcs'', hid'', hchat''⟩ := h3 cid' info' hinfo' u' hu'
    have hne : ¬ sock'' = sock := by
      intro e2
      rw [e2] at hcs''
      rw [hun sd'' hcs''] at hchat''
      exact Option.noConfusion hchat''
    refine ⟨sock'', sd'', cty'', ?_, hid'', hchat''⟩
    simp only [hcs]
    rw [if_neg hne]
    exact hcs''

theorem sessionInv_stepConnect (s : Sys) (sock u : String) (now : Nat)
    (hok : ∀ x sdx, s.connectedSockets x = some sdx → sdx.userId ≠ u)
    (h : SessionInv s) : SessionInv (stepConnect s sock u now).1 := by
  by_cases hs : (s.connectedSockets sock).isSome
  · simp only [stepConnect, if_pos hs]
    exact h
  · have hnone : s.connectedSockets sock = none := by
      rcases hcc : s.connectedSockets sock with _ | z
      · rfl
      · rw [hcc] at hs
        simp at hs
    simp only [stepConnect, if_neg hs]
    rcases hu : s.usersDb u with _ | doc
    · simp only [hu]
      exact h
    · simp only [hu, eq_self_iff_true, ite_true]
      split
      · exact sessionInv_addSocket s sock u doc.status hnone hok h _ rfl rfl
      · exact sessionInv_addSocket s sock u doc.status hnone hok h _ rfl rfl

theorem sessionInv_stepDisconnect (s : Sys) (sock : String) (now : Nat)
    (h : SessionInv s) : SessionInv (stepDisconnect s sock now).1 := by
  rcases hcs : s.connectedSockets sock with _ | sd
  · simp only [stepDisconnect, hcs]
    exact h
  · simp only [stepDisconnect, hcs]
    have hL := sessionInv_leave s sock h
    have hun : ∀ sd', (leaveCurrentChat s sock).1.connectedSockets sock = some sd' →
        sd'.currentChat = none := by
      intro sd' hsd'
      rw [leave_cs_self, hcs] at hsd'
      injection hsd' with e
      rw [← e]
    split
    · split
      · exact sessionInv_removeSocket (leaveCurrentChat s sock).1 _ sock rfl rfl hun hL
      · exact sessionInv_removeSocket (leaveCurrentChat s sock).1 _ sock rfl rfl hun hL
    · exact sessionInv_removeSocket (leaveCurrentChat s sock).1 _ sock rfl rfl hun hL

theorem sessionInv_stepSetStatus (s : Sys) (sock status msg : String) (now : Nat)
    (h : SessionInv s) : SessionInv (stepSetStatus s sock status msg now).1 := by
  rcases hcs : s.connectedSockets sock with _ | sd
  · simp only [stepSetStatus, hcs]
    exact h
  · simp only [stepSetStatus, hcs]
    by_cases hst : status = ""
    · simp only [if_pos hst]
      exact h
    · simp only [if_neg hst]
      rcases hu : s.usersDb sd.userId with _ | doc
      · simp only [hu]
        exact h
      · simp only [hu]
        refine sessionInv_congr s _ rfl ?_ h
        intro x
        by_cases hx : x = sock
        · rw [hx]
          simp [hcs]
        · simp [hx]

theorem sessionInv_stepChatMessage (s : Sys) (sock cty cid text : String) (now : Nat)
    (h : SessionInv s) : SessionInv (stepChatMessage s sock cty cid text now).1 := by
  rcases hcs : s.connectedSockets sock with _ | sd
  · simp only [stepChatMessage, hcs]
    exact h
  · simp only [stepChatMessage, hcs]
    rcases hchat : sd.currentChat with _ | ⟨curId, curType⟩
    · simp only [hchat]
      exact h
    · simp only [hchat]
      by_cases hmis : cty ≠ curType ∨ cid ≠ curId
      · simp only [if_pos hmis]
        exact h
      · simp only [if_neg hmis]
        by_cases hlen : text.trim = "" ∨ MAX_MESSAGE_LENGTH < text.trim.length
        · simp only [if_pos hlen]
          exact h
        · simp only [if_neg hlen]
          rcases hdb : (match lookupChat s.activeChats curId with
            | some info => some info.dbId
            | none =>
              match
                (if curType = "room" then findPublicRoom s.roomsDb curId
                 else findRoomById s.roomsDb curId) with
              | some room => some room.rid
              | none => none) with _ | chatDbId
          · simp only [hdb]
            exact h
          · simp only [hdb]
            exact sessionInv_congr s _ rfl (fun x => rfl) h

theorem sessionInv_stepJoinRoom (s : Sys) (sock name rid : String) (now : Nat)
    (h : SessionInv s) : SessionInv (stepJoinRoom s sock name rid now).1 := by
  rcases hcs : s.connectedSockets sock with _ | sd0
  · simp only [stepJoinRoom, hcs]
    exact h
  · simp only [stepJoinRoom, hcs]
    by_cases hname : name = ""
    · simp only [if_pos hname]
      exact h
    · simp only [if_neg hname]
      have hL := sessionInv_leave s sock h
      have hah : (leaveCurrentChat s sock).1.connectedSockets sock =
          some { sd0 with currentChat := none } := by
        rw [leave_cs_self, hcs]
        rfl
      rcases hroom : findPublicRoom (leaveCurrentChat s sock).1.roomsDb name with _ | room
      · simp only [hroom]
        by_cases hval : validRoomName name = false
        · simp only [if_pos hval]
          exact hL
        · simp only [if_neg hval]
          rw [joinRespond_frame]
          refine sessionInv_join _ sock name "room" (capitalizeFirst name) rid
            { sd0 with currentChat := none } hah rfl ?_
          exact sessionInv_congr (leaveCurrentChat s sock).1 _ rfl (fun x => rfl) hL
      · simp only [hroom]
        rw [joinRespond_frame]
        exact sessionInv_join _ sock name "room" (room.displayName.getD "") room.rid
          { sd0 with currentChat := none } hah rfl hL

theorem sessionInv_stepJoinDirect (s : Sys) (sock roomId : String)
    (h : SessionInv s) : SessionInv (stepJoinDirect s sock roomId).1 := by
  rcases hcs : s.connectedSockets sock with _ | sd0
  · simp only [stepJoinDirect, hcs]
    exact h
  · simp only [stepJoinDirect, hcs]
    by_cases hname : roomId = ""
    · simp only [if_pos hname]
      exact h
    · simp only [if_neg hname]
      have hL := sessionInv_leave s sock h
      have hah : (leaveCurrentChat s sock).1.connectedSockets sock =
          some { sd0 with currentChat := none } := by
        rw [leave_cs_self, hcs]
        rfl
      by_cases hvid : isValidObjectId roomId = false
      · simp only [if_pos hvid]
        exact hL
      · simp only [if_neg hvid]
        rcases hroom : findRoomById (leaveCurrentChat s sock).1.roomsDb roomId with _ | room
        · simp only [hroom]
          exact hL
        · simp only [hroom]
          by_cases hty : room.rtype ≠ "direct"
          · simp only [if_pos hty]
            exact hL
          · simp only [if_neg hty]
            by_cases hpart : room.participants.contains sd0.userId = false
            · simp only [if_pos hpart]
              exact hL
            · simp only [if_neg hpart]
              rcases hother : (room.participants.filter (fun p => p ≠ sd0.userId)).head?
                with _ | otherId
              · simp only [hother]
                exact hL
              · simp only [hother]
                rcases hdoc : (leaveCurrentChat s sock).1.usersDb otherId with _ | otherDoc
                · simp only [hdoc]
                  exact hL
                · simp only [hdoc]
                  rw [joinRespond_frame]
                  exact sessionInv_join _ sock roomId "direct" otherDoc.username roomId
                    { sd0 with currentChat := none } hah rfl hL

/-! ## Reachability under the single-connection, no-direct-initiation discipline -/

theorem sessionInv_init (users : String → Option UserDoc) (rooms : List RoomDoc) :
    SessionInv (initSys users rooms) := by
  refine ⟨?_, ?_, ?_⟩
  · intro a b sda sdb ha hb hab
    exact Option.noConfusion ha
  · intro sock sd cid cty ht hchat
    exact Option.noConfusion ht
  · intro cid info hinfo u hu
    exact Option.noConfusion hinfo

theorem sessionInv_step (s : Sys) (op : Op) (h : SessionInv s) (hok : okOp s op) :
    SessionInv (step s op).1 := by
  cases op with
  | connect sock u now => exact sessionInv_stepConnect s sock u now hok h
  | joinRoom sock name rid now => exact sessionInv_stepJoinRoom s sock name rid now h
  | joinDirect sock roomId => exact sessionInv_stepJoinDirect s sock roomId h
  | initiateDm sock target rid now => exact hok.elim
  | chatMessage sock cty cid text now => exact sessionInv_stepChatMessage s sock cty cid text now h
  | setStatus sock st msg now => exact sessionInv_stepSetStatus s sock st msg now h
  | disconnect sock now => exact sessionInv_stepDisconnect s sock now h

theorem sessionInv_of_reachable (users : String → Option UserDoc) (rooms : List RoomDoc)
    (s : Sys) (h : ReachableOk users rooms s) : SessionInv s := by
  induction h with
  | base => exact sessionInv_init users rooms
  | next s' op hr hok ih => exact sessionInv_step s' op ih hok

theorem sessionInv_implies_match (s : Sys) (h : SessionInv s) :
    ActiveMembershipMatchesConnections s := by
  obtain ⟨h1, h2, h3⟩ := h
  intro cid info hinfo u
  constructor
  · intro hu
    obtain ⟨sock, sd, cty, hcs, hid, hchat⟩ := h3 cid info hinfo u hu
    exact ⟨sock, sd, hcs, hid, cty, hchat⟩
  · rintro ⟨sock, sd, hcs, hid, cty, hchat⟩
    obtain ⟨info', hinfo', hmem⟩ := h2 sock sd cid cty hcs hchat
    rw [hinfo] at hinfo'
    injection hinfo' with e
    rw [e, ← hid]
    exact hmem

theorem stepConnect_cs_other (s : Sys) (sock u : String) (now : Nat) (x : String)
    (hx : ¬ x = sock) :
    (stepConnect s sock u now).1.connectedSockets x = s.connectedSockets x := by
  unfold stepConnect
  split
  · rfl
  · split
    · rfl
    · dsimp only
      split
      · split
        · simp [hx]
        · simp [hx]
      · split
        · simp [hx]
        · simp [hx]

theorem stepInitiateDm_cs_other (s : Sys) (sock target rid : String) (now : Nat) (x : String)
    (hx : ¬ x = sock) :
    (stepInitiateDm s sock target rid now).1.connectedSockets x = s.connectedSockets x := by
  unfold stepInitiateDm
  split
  · rfl
  · split
    · rfl
    · split
      · rfl
      · split
        · rfl
        · split
          · rfl
          · rw [joinRespond_frame]
            rw [join_cs_other _ sock _ "direct" _ _ x hx]
            rw [leave_cs_other _ sock x hx]

/-! ## Claim C1 -/

/-- C1 counterexample: after join/leave/initiate-direct/disconnect
sequences, the `activeChats` member set does *not* always equal the set of
identities owning a connection attached to the conversation.  With two
connections of one identity, a single leave erases the identity while the
other connection is still attached; and `initiate dm` records the DM target
as a member although the target owns no attached connection. -/
theorem activeMembership_claim_counterexample :
    ¬ ActiveMembershipMatchesConnections c1MultiConnState ∧
    ¬ ActiveMembershipMatchesConnections c1DmState := by
  constructor
  · intro hcl
    have h2 := (hcl "general" _ rfl "aaaaaaaaaaaaaaaaaaaaaaaa").mpr
      ⟨"s2", _, rfl, rfl, "room", rfl⟩
    exact absurd h2 (by decide)
  · intro hcl
    have h2 := (hcl "cccccccccccccccccccccccc" _ rfl "bbbbbbbbbbbbbbbbbbbbbbbb").mp
      (by decide)
    obtain ⟨sock, sd, hsock, hid, cty, hchat⟩ := h2
    by_cases hs1 : sock = "s1"
    · rw [hs1] at hsock
      have hval : c1DmState.connectedSockets "s1" =
          some { userId := "aaaaaaaaaaaaaaaaaaaaaaaa", cachedStatus := "offline",
                 currentChat := some ("cccccccccccccccccccccccc", "direct") } := by
        decide
      rw [hval] at hsock
      injection hsock with e
      rw [← e] at hid
      exact absurd hid (by decide)
    · have hnone : c1DmState.connectedSockets sock = none := by
        show (stepInitiateDm
          (stepConnect (initSys exampleUsers []) "s1" "aaaaaaaaaaaaaaaaaaaaaaaa" 0).1
          "s1" "bbbbbbbbbbbbbbbbbbbbbbbb" "cccccccccccccccccccccccc" 1).1.connectedSockets
            sock = none
        rw [stepInitiateDm_cs_other _ _ _ _ _ sock hs1,
            stepConnect_cs_other _ _ _ _ sock hs1]
        rfl
      rw [hnone] at hsock
      exact Option.noConfusion hsock

/-- C1 (amended): in every state reachable by join, leave and disconnect
events under the single-connection discipline (each identity owns at most
one live connection, and no `initiate dm` event occurs — `okOp`), every
`activeChats` member set equals exactly the set of identities owning a live
connection currently attached to that conversation. -/
theorem activeMembership_iff_attached (users : String → Option UserDoc)
    (rooms : List RoomDoc) (s : Sys) (h : ReachableOk users rooms s) :
    ActiveMembershipMatchesConnections s :=
  sessionInv_implies_match s (sessionInv_of_reachable users rooms s h)

/-- C1 witness: the amended invariant instantiated on a concrete reachable
state (one connection joining a fresh room). -/
theorem activeMembership_iff_attached_witness :
    ActiveMembershipMatchesConnections
      (runOps (initSys exampleUsers [])
        [Op.connect "s1" "aaaaaaaaaaaaaaaaaaaaaaaa" 0,
         Op.joinRoom "s1" "general" "r1" 1]) :=
  activeMembership_iff_attached exampleUsers [] _
    (ReachableOk.next _ _
      (ReachableOk.next _ _ ReachableOk.base
        (fun x sdx hx => Option.noConfusion hx))
      trivial)

/-! ## Claim C2 -/

/-- C2: the direct-conversation resolver's contract.  A self pair fails
with the invalid-pair error regardless of the save outcome; an existing
room for the sorted pair is returned with `isNew = false` and no write; a
miss followed by a successful save creates and returns the new record with
`isNew = true`; a miss whose save hits a uniqueness violation re-queries
once and returns the now-existing record with `isNew = false`; and only
when that re-query also misses does the resolver fail with the
inconsistent-state error. -/
theorem findOrCreateDirectMessage_contract (db : List RoomDoc) (newId : String)
    (now : Nat) (u1 u2 : String) :
    (u1 = u2 → ∀ outcome, findOrCreateDirectMessage db outcome newId now u1 u2 =
      .error .invalidPair) ∧
    (¬ u1 = u2 → ∀ outcome r, findDirectRoom db (sortPair u1 u2) = some r →
      findOrCreateDirectMessage db outcome newId now u1 u2 = .ok (db, r, false)) ∧
    (¬ u1 = u2 → findDirectRoom db (sortPair u1 u2) = none →
      findOrCreateDirectMessage db .ok newId now u1 u2 =
        .ok (db ++ [newDmRoom newId now u1 u2], newDmRoom newId now u1 u2, true)) ∧
    (¬ u1 = u2 → findDirectRoom db (sortPair u1 u2) = none →
      ∀ dbR r, findDirectRoom dbR (sortPair u1 u2) = some r →
        findOrCreateDirectMessage db (.dupKey dbR) newId now u1 u2 = .ok (dbR, r, false)) ∧
    (¬ u1 = u2 → findDirectRoom db (sortPair u1 u2) = none →
      ∀ dbR, findDirectRoom dbR (sortPair u1 u2) = none →
        findOrCreateDirectMessage db (.dupKey dbR) newId now u1 u2 =
          .error .inconsistentState) := by
  refine ⟨?_, ?_, ?_, ?_, ?_⟩
  · intro h outcome
    simp [findOrCreateDirectMessage, h]
  · intro h outcome r hr
    simp [findOrCreateDirectMessage, h, hr]
  · intro h hmiss
    simp [findOrCreateDirectMessage, h, hmiss]
  · intro h hmiss dbR r hr
    simp [findOrCreateDirectMessage, h, hmiss, hr]
  · intro h hmiss dbR hr
    simp [findOrCreateDirectMessage, h, hmiss, hr]

/-- C2 witness: the race-recovery clause at concrete inputs — the save of
the pair (a, b) hits a duplicate key because a concurrent caller inserted
the room; the resolver returns that room with `isNew = false`. -/
theorem findOrCreateDirectMessage_contract_witness :
    findOrCreateDirectMessage [] (.dupKey [newDmRoom "x" 5 "a" "b"]) "y" 7 "a" "b" =
      .ok ([newDmRoom "x" 5 "a" "b"], newDmRoom "x" 5 "a" "b", false) :=
  (findOrCreateDirectMessage_contract [] "y" 7 "a" "b").2.2.2.1 (by decide) rfl
    [newDmRoom "x" 5 "a" "b"] (newDmRoom "x" 5 "a" "b") (by decide)

/-! ## Claim C6 -/

/-- C6: the presence fan-out delivers to a socket exactly when that socket
is a live connection of some identity `v` distinct from the changing
identity `u` such that some active chat's member set contains both `u` and
`v` — and to no other socket. -/
theorem presence_broadcast_delivery (chats : List (String × ChatInfo))
    (us : String → Finset String) (u x : String) :
    x ∈ presenceDeliverySockets chats us u ↔
      ∃ v, v ≠ u ∧ (∃ p, p ∈ chats ∧ u ∈ p.2.members ∧ v ∈ p.2.members) ∧ x ∈ us v := by
  unfold presenceDeliverySockets
  simp only [Finset.mem_biUnion, mem_usersToNotify]
  constructor
  · rintro ⟨v, ⟨hne, hp⟩, hx⟩
    exact ⟨v, hne, hp, hx⟩
  · rintro ⟨v, hne, hp, hx⟩
    exact ⟨v, ⟨hne, hp⟩, hx⟩

/-! ## Claim C9 -/

/-- C9: a leave (the membership detach) never deletes an `activeChats`
record — even when the member set empties — and changes no field other
than the member set, from which it removes at most the leaving identity;
and a disconnect changes `activeChats` exactly as its internal leave does,
so no leave or disconnect sequence ever deletes a record. -/
theorem detach_preserves_records :
    (∀ s : Sys, ∀ sock c : String, ∀ info, lookupChat s.activeChats c = some info →
       ∃ info', lookupChat (leaveCurrentChat s sock).1.activeChats c = some info' ∧
         info'.name = info.name ∧ info'.ctype = info.ctype ∧ info'.dbId = info.dbId ∧
         (info'.members = info.members ∨
          ∃ sd, s.connectedSockets sock = some sd ∧
            info'.members = info.members.erase sd.userId)) ∧
    (∀ s : Sys, ∀ sock c : String,
       (lookupChat (leaveCurrentChat s sock).1.activeChats c).isSome =
         (lookupChat s.activeChats c).isSome) ∧
    (∀ s : Sys, ∀ sock : String, ∀ now : Nat,
       (stepDisconnect s sock now).1.activeChats =
         (leaveCurrentChat s sock).1.activeChats) := by
  refine ⟨?_, ?_, ?_⟩
  · intro s sock c info hinfo
    rcases hcs : s.connectedSockets sock with _ | sd
    · rw [leave_of_no_socket s sock hcs]
      exact ⟨info, hinfo, rfl, rfl, rfl, Or.inl rfl⟩
    · rcases hchat : sd.currentChat with _ | ⟨cid, cty⟩
      · rw [leave_of_unattached s sock sd hcs hchat]
        exact ⟨info, hinfo, rfl, rfl, rfl, Or.inl rfl⟩
      · rw [leave_lookup s sock sd cid cty hcs hchat c]
        by_cases hc : c = cid
        · rw [if_pos hc, hinfo]
          refine ⟨_, rfl, rfl, rfl, rfl, Or.inr ?_⟩
          exact ⟨sd, rfl, rfl⟩
        · rw [if_neg hc]
          exact ⟨info, hinfo, rfl, rfl, rfl, Or.inl rfl⟩
  · intro s sock c
    rcases hcs : s.connectedSockets sock with _ | sd
    · rw [leave_of_no_socket s sock hcs]
    · rcases hchat : sd.currentChat with _ | ⟨cid, cty⟩
      · rw [leave_of_unattached s sock sd hcs hchat]
      · rw [leave_lookup s sock sd cid cty hcs hchat c]
        by_cases hc : c = cid
        · rw [if_pos hc]
          rcases lookupChat s.activeChats c with _ | i <;> rfl
        · rw [if_neg hc]
  · intro s sock now
    unfold stepDisconnect
    split
    · rename_i hcs
      rw [leave_of_no_socket s sock hcs]
    · dsimp only
      split
      · split
        · rfl
        · rfl
      · rfl

/-- C9 witness: the record for `general` survives the attached
connection's leave with its display name, kind and backing id intact. -/
theorem detach_preserves_records_witness :
    ∃ info', lookupChat (leaveCurrentChat inRoomState "s1").1.activeChats "general" =
        some info' ∧
      info'.name = "General" ∧ info'.ctype = "room" ∧ info'.dbId = "r1" ∧
      (info'.members = insert "aaaaaaaaaaaaaaaaaaaaaaaa" (∅ : Finset String) ∨
       ∃ sd, inRoomState.connectedSockets "s1" = some sd ∧
         info'.members =
           (insert "aaaaaaaaaaaaaaaaaaaaaaaa" (∅ : Finset String)).erase sd.userId) := by
  obtain ⟨info', h1, h2, h3, h4, h5⟩ := detach_preserves_records.1 inRoomState "s1" "general"
    { name := "General", ctype := "room", dbId := "r1",
      members := insert "aaaaaaaaaaaaaaaaaaaaaaaa" (∅ : Finset String) } (by decide)
  exact ⟨info', h1, by rw [h2], by rw [h3], by rw [h4], h5⟩

/-! ## Claim C10 -/

theorem sliceChars_length_le (s : String) (n : Nat) : (sliceChars s n).length ≤ n := by
  have h : (sliceChars s n).length = (s.toList.take n).length := rfl
  rw [h, List.length_take]
  exact min_le_left _ _

/-- C10 counterexample: the claim quantifies over every status value
outside the accepted set, but the empty string is such a value and the
handler rejects it (`!data.status`) instead of coercing it to `online`:
nothing is persisted and an error is sent. -/
theorem setStatus_coercion_counterexample :
    validStatuses.contains "" = false ∧
    (stepSetStatus oneConnState "s1" "" "hello" 3).2 =
      [Ev.errMsg "s1" "Invalid status update data."] ∧
    (stepSetStatus oneConnState "s1" "" "hello" 3).1.usersDb "aaaaaaaaaaaaaaaaaaaaaaaa" =
      oneConnState.usersDb "aaaaaaaaaaaaaaaaaaaaaaaa" := by
  refine ⟨by decide, by decide, by decide⟩

/-- C10 (amended): a set-status request whose status value is *non-empty*
and outside the accepted set (`online`, `away`, `dnd`) — in particular an
explicit request for `offline` — is not rejected: the status is silently
coerced to `online`, persisted and broadcast as `online`; and the free-text
status message is trimmed and silently truncated to at most 60 characters
rather than rejected.  (An empty status value is instead rejected as
invalid data.) -/
theorem setStatus_coercion (s : Sys) (sock status msg : String) (now : Nat)
    (sd : SocketData) (doc : UserDoc)
    (hcs : s.connectedSockets sock = some sd)
    (hne : ¬ status = "")
    (hinv : validStatuses.contains status = false)
    (hdoc : s.usersDb sd.userId = some doc) :
    (stepSetStatus s sock status msg now).1.usersDb sd.userId =
      some { doc with
               status := "online"
               statusMessage := sliceChars msg.trim 60
               lastSeen := now } ∧
    (stepSetStatus s sock status msg now).2 =
      [Ev.presence sd.userId "online" (usersToNotify s.activeChats sd.userId)] ∧
    (sliceChars msg.trim 60).length ≤ 60 := by
  have hcoerce : (if validStatuses.contains status then status else "online") = "online" := by
    rw [hinv]
    rfl
  simp only [stepSetStatus, hcs, if_neg hne, hdoc, hcoerce]
  exact ⟨by simp, by simp, sliceChars_length_le _ _⟩

/-- C10 witness: an explicit `offline` request from a live connection is
coerced: the persisted record carries status `online` and the trimmed,
truncated message. -/
theorem setStatus_coercion_witness :
    (stepSetStatus oneConnState "s1" "offline" "  hello  " 3).1.usersDb
        "aaaaaaaaaaaaaaaaaaaaaaaa" =
      some { username := "alice", status := "online",
             statusMessage := sliceChars ("  hello  " : String).trim 60, lastSeen := 3 } := by
  have h := setStatus_coercion oneConnState "s1" "offline" "  hello  " 3
    { userId := "aaaaaaaaaaaaaaaaaaaaaaaa", cachedStatus := "offline", currentChat := none }
    { username := "alice", status := "online", statusMessage := "", lastSeen := 0 }
    (by decide) (by decide) (by decide) (by decide)
  exact h.1

/-! ## Claim C5 -/

/-- C5 counterexample: a join request for the malformed room name `ab`
(too short, no such room) from a connection attached to `general` is
rejected, but the state is *not* unchanged: the connection's previous
attachment is cleared and it has been removed from `general`'s member set
(the leave sequence runs before name validation), and a stop-typing signal
is emitted into the left room. -/
theorem joinRoom_malformed_counterexample :
    validRoomName "ab" = false ∧
    (stepJoinRoom inRoomState "s1" "ab" "r9" 2).2 =
      [Ev.stopTyping "general" "aaaaaaaaaaaaaaaaaaaaaaaa",
       Ev.errMsg "s1"
         "Invalid room name format. Use lowercase letters, numbers, -, _ (3-20 chars)."] ∧
    ¬ ((stepJoinRoom inRoomState "s1" "ab" "r9" 2).1.connectedSockets "s1" =
         inRoomState.connectedSockets "s1" ∧
       lookupChat (stepJoinRoom inRoomState "s1" "ab" "r9" 2).1.activeChats "general" =
         lookupChat inRoomState.activeChats "general") := by
  refine ⟨by decide, by decide, by decide⟩

/-- C5 (amended): a join request for a public conversation with a
non-empty malformed name matching no existing room is rejected with an
error to the requesting connection, but only *after* the leave sequence
for the previous conversation has run: the resulting state is exactly the
state after `leaveCurrentChat` (previous attachment cleared, requester
removed from the previous member set), and the emissions are exactly the
leave emissions followed by the error to the requester; in particular no
room is created and no membership is added. -/
theorem joinRoom_malformed_name (s : Sys) (sock name newRoomId : String) (now : Nat)
    (sd : SocketData)
    (hcs : s.connectedSockets sock = some sd)
    (hne : ¬ name = "")
    (hmiss : findPublicRoom s.roomsDb name = none)
    (hbad : validRoomName name = false) :
    stepJoinRoom s sock name newRoomId now =
      ((leaveCurrentChat s sock).1,
       (leaveCurrentChat s sock).2 ++
         [Ev.errMsg sock
           "Invalid room name format. Use lowercase letters, numbers, -, _ (3-20 chars)."]) := by
  have hm2 : findPublicRoom (leaveCurrentChat s sock).1.roomsDb name = none := by
    rw [(leave_frame s sock).1]
    exact hmiss
  simp only [stepJoinRoom, hcs, if_neg hne, hm2, if_pos hbad]

/-- C5 witness: the amended statement at the counterexample's concrete
input. -/
theorem joinRoom_malformed_name_witness :
    stepJoinRoom inRoomState "s1" "ab" "r9" 2 =
      ((leaveCurrentChat inRoomState "s1").1,
       (leaveCurrentChat inRoomState "s1").2 ++
         [Ev.errMsg "s1"
           "Invalid room name format. Use lowercase letters, numbers, -, _ (3-20 chars)."]) :=
  joinRoom_malformed_name inRoomState "s1" "ab" "r9" 2
    { userId := "aaaaaaaaaaaaaaaaaaaaaaaa", cachedStatus := "offline",
      currentChat := some ("general", "room") }
    (by decide) (by decide) rfl (by decide)

/-! ## Claim C4 -/

/-- C4: a chat-message request is rejected — leaving the message store and
the rooms store (in particular every conversation's last-activity stamp)
untouched and emitting only an error to the sending connection — whenever
the sender's current attachment differs from the target conversation, or
the trimmed text is empty, or the trimmed text exceeds the maximum length;
and conversely, a request that persists a message satisfies all three
preconditions. -/
theorem chatMessage_validation (s : Sys) (sock cty cid text : String) (now : Nat)
    (sd : SocketData) (hcs : s.connectedSockets sock = some sd) :
    ((sd.currentChat ≠ some (cid, cty) ∨ text.trim = "" ∨
        MAX_MESSAGE_LENGTH < text.trim.length) →
      (stepChatMessage s sock cty cid text now).1.messagesDb = s.messagesDb ∧
      (stepChatMessage s sock cty cid text now).1.roomsDb = s.roomsDb ∧
      ∃ m, (stepChatMessage s sock cty cid text now).2 = [Ev.errMsg sock m]) ∧
    ((stepChatMessage s sock cty cid text now).1.messagesDb ≠ s.messagesDb →
      sd.currentChat = some (cid, cty) ∧ ¬ text.trim = "" ∧
        text.trim.length ≤ MAX_MESSAGE_LENGTH) := by
  rcases hchat : sd.currentChat with _ | ⟨curId, curType⟩
  · simp only [stepChatMessage, hcs, hchat]
    simp
  · simp only [stepChatMessage, hcs, hchat]
    by_cases hmis : cty ≠ curType ∨ cid ≠ curId
    · simp only [if_pos hmis]
      simp
    · simp only [if_neg hmis]
      push_neg at hmis
      obtain ⟨h1, h2⟩ := hmis
      by_cases hlen : text.trim = "" ∨ MAX_MESSAGE_LENGTH < text.trim.length
      · simp only [if_pos hlen]
        simp
      · simp only [if_neg hlen]
        push_neg at hlen
        constructor
        · intro hviol
          exfalso
          rcases hviol with hv | hv | hv
          · apply hv
            rw [← h2, ← h1]
          · exact hlen.1 hv
          · exact absurd hv (not_lt.mpr hlen.2)
        · intro _
          refine ⟨?_, hlen.1, hlen.2⟩
          rw [← h2, ← h1]

/-- C4 witness: a message targeted at `library` from a connection attached
to `general` is rejected with an error only, persisting nothing. -/
theorem chatMessage_validation_witness :
    (stepChatMessage inRoomState "s1" "room" "library" "hi" 9).1.messagesDb =
      inRoomState.messagesDb ∧
    ∃ m, (stepChatMessage inRoomState "s1" "room" "library" "hi" 9).2 =
      [Ev.errMsg "s1" m] := by
  have h := (chatMessage_validation inRoomState "s1" "room" "library" "hi" 9
    { userId := "aaaaaaaaaaaaaaaaaaaaaaaa", cachedStatus := "offline",
      currentChat := some ("general", "room") } (by decide)).1 (by decide)
  exact ⟨h.1, h.2.2⟩

/-! ## Claim C7 -/

theorem findPublicRoom_append_of_none (db : List RoomDoc) (room : RoomDoc) (name : String)
    (h : findPublicRoom db name = none)
    (hr : room.rtype = "public" ∧ room.name = some name) :
    findPublicRoom (db ++ [room]) name = some room := by
  unfold findPublicRoom at *
  rw [List.find?_append, h]
  simp [List.find?, hr.1, hr.2]

/-- C7: joining a public conversation by a well-formed name with no
existing room creates the room (appending it to the store), and the joiner
receives `wasCreated = true`; afterwards the room found under that name is
exactly the created record; and in any state where a room already exists
under the name, a join by any connection receives `wasCreated = false` and
leaves the room store unchanged — so a subsequent join finds the same
conversation id as the first. -/
theorem joinRoom_create_roundtrip (s : Sys) (sock name newRoomId : String) (now : Nat)
    (sd : SocketData)
    (hcs : s.connectedSockets sock = some sd)
    (hval : validRoomName name = true)
    (hmiss : findPublicRoom s.roomsDb name = none) :
    (Ev.joinedChat sock name true ∈ (stepJoinRoom s sock name newRoomId now).2 ∧
     (stepJoinRoom s sock name newRoomId now).1.roomsDb =
       s.roomsDb ++
         [{ rid := newRoomId, rtype := "public", name := some name,
            displayName := some (capitalizeFirst name), participants := [],
            lastActivity := now }]) ∧
    findPublicRoom (stepJoinRoom s sock name newRoomId now).1.roomsDb name =
      some { rid := newRoomId, rtype := "public", name := some name,
             displayName := some (capitalizeFirst name), participants := [],
             lastActivity := now } ∧
    (∀ t : Sys, ∀ sock2 rid2 : String, ∀ now2 : Nat, ∀ sd2 : SocketData, ∀ room : RoomDoc,
       t.connectedSockets sock2 = some sd2 →
       findPublicRoom t.roomsDb name = some room →
       Ev.joinedChat sock2 name false ∈ (stepJoinRoom t sock2 name rid2 now2).2 ∧
         (stepJoinRoom t sock2 name rid2 now2).1.roomsDb = t.roomsDb) := by
  have hne : ¬ name = "" := by
    intro h
    rw [h] at hval
    exact absurd hval (by decide)
  have hm2 : findPublicRoom (leaveCurrentChat s sock).1.roomsDb name = none := by
    rw [(leave_frame s sock).1]
    exact hmiss
  have hnotfalse : ¬ validRoomName name = false := by
    rw [hval]
    decide
  have hmain : ∀ X : Prop, ((stepJoinRoom s sock name newRoomId now).2 =
        (leaveCurrentChat s sock).2 ++
          (joinRespond ({ (leaveCurrentChat s sock).1 with
              roomsDb := (leaveCurrentChat s sock).1.roomsDb ++
                [{ rid := newRoomId, rtype := "public", name := some name,
                   displayName := some (capitalizeFirst name), participants := [],
                   lastActivity := now }] }) sock name "room" (capitalizeFirst name)
            newRoomId true).2 → X) → X := by
    intro X hX
    apply hX
    simp only [stepJoinRoom, hcs, if_neg hne, hm2, if_neg hnotfalse]
  refine ⟨⟨?_, ?_⟩, ?_, ?_⟩
  · apply hmain
    intro hev
    rw [hev]
    unfold joinRespond
    simp
  · simp only [stepJoinRoom, hcs, if_neg hne, hm2, if_neg hnotfalse]
    rw [joinRespond_frame, (join_frame _ _ _ _ _ _).1, (leave_frame s sock).1]
  · simp only [stepJoinRoom, hcs, if_neg hne, hm2, if_neg hnotfalse]
    rw [joinRespond_frame, (join_frame _ _ _ _ _ _).1]
    have := findPublicRoom_append_of_none (leaveCurrentChat s sock).1.roomsDb
      { rid := newRoomId, rtype := "public", name := some name,
        displayName := some (capitalizeFirst name), participants := [],
        lastActivity := now } name hm2 ⟨rfl, rfl⟩
    rw [this]
  · intro t sock2 rid2 now2 sd2 room hcs2 hfound
    have hf2 : findPublicRoom (leaveCurrentChat t sock2).1.roomsDb name = some room := by
      rw [(leave_frame t sock2).1]
      exact hfound
    constructor
    · simp only [stepJoinRoom, hcs2, if_neg hne, hf2]
      unfold joinRespond
      simp
    · simp only [stepJoinRoom, hcs2, if_neg hne, hf2]
      rw [joinRespond_frame, (join_frame _ _ _ _ _ _).1, (leave_frame t sock2).1]

/-- C7 witness: a fresh `general` is created with `wasCreated = true`; the
same connection rejoining the now-existing room receives
`wasCreated = false`. -/
theorem joinRoom_create_roundtrip_witness :
    Ev.joinedChat "s1" "general" true ∈
      (stepJoinRoom oneConnState "s1" "general" "r1" 1).2 ∧
    Ev.joinedChat "s1" "general" false ∈
      (stepJoinRoom (stepJoinRoom oneConnState "s1" "general" "r1" 1).1
        "s1" "general" "r2" 2).2 := by
  have h := joinRoom_create_roundtrip oneConnState "s1" "general" "r1" 1
    { userId := "aaaaaaaaaaaaaaaaaaaaaaaa", cachedStatus := "offline", currentChat := none }
    (by decide) (by decide) rfl
  refine ⟨h.1.1, ?_⟩
  exact (h.2.2 (stepJoinRoom oneConnState "s1" "general" "r1" 1).1 "s1" "r2" 2
    { userId := "aaaaaaaaaaaaaaaaaaaaaaaa", cachedStatus := "offline",
      currentChat := some ("general", "room") }
    { rid := "r1", rtype := "public", name := some "general",
      displayName := some (capitalizeFirst "general"), participants := [],
      lastActivity := 1 }
    (by decide) h.2.1).1

/-! ## Claim C8 -/

theorem newestFirst_trans : ∀ a b c : MessageDoc, newestFirst a b = true →
    newestFirst b c = true → newestFirst a c = true := by
  intro a b c hab hbc
  simp only [newestFirst, decide_eq_true_eq] at *
  omega

theorem newestFirst_total : ∀ a b : MessageDoc,
    (newestFirst a b || newestFirst b a) = true := by
  intro a b
  simp only [newestFirst, Bool.or_eq_true, decide_eq_true_eq]
  omega

/-- C8: the history delivered for a conversation is chronologically ordered
(oldest first), contains only that conversation's messages, has length
`min MESSAGE_HISTORY_LIMIT total`, and every message of the conversation
left out is no newer than every delivered one — so with more than the limit
present, the delivered list is exactly the newest `MESSAGE_HISTORY_LIMIT`
messages in chronological order. -/
theorem getRecentMessages_contract (db : List MessageDoc) (chatDbId : String) :
    List.Pairwise (fun a b => a.createdAt ≤ b.createdAt) (getRecentMessages db chatDbId) ∧
    (getRecentMessages db chatDbId).length =
      min MESSAGE_HISTORY_LIMIT (db.filter (fun m2 => m2.chat = chatDbId)).length ∧
    (∀ m, m ∈ getRecentMessages db chatDbId →
      m ∈ db.filter (fun m2 => m2.chat = chatDbId)) ∧
    (∀ m, m ∈ db.filter (fun m2 => m2.chat = chatDbId) →
      m ∉ getRecentMessages db chatDbId →
      ∀ r, r ∈ getRecentMessages db chatDbId → m.createdAt ≤ r.createdAt) := by
  have hperm : ((db.filter (fun m2 => m2.chat = chatDbId)).mergeSort newestFirst).Perm
      (db.filter (fun m2 => m2.chat = chatDbId)) :=
    List.mergeSort_perm _ newestFirst
  have hsorted : List.Pairwise (fun a b => newestFirst a b = true)
      ((db.filter (fun m2 => m2.chat = chatDbId)).mergeSort newestFirst) :=
    List.sorted_mergeSort newestFirst_trans newestFirst_total _
  have hres : getRecentMessages db chatDbId =
      (((db.filter (fun m2 => m2.chat = chatDbId)).mergeSort newestFirst).take
        MESSAGE_HISTORY_LIMIT).reverse := rfl
  refine ⟨?_, ?_, ?_, ?_⟩
  · rw [hres, List.pairwise_reverse]
    have htake := List.Pairwise.sublist (List.take_sublist MESSAGE_HISTORY_LIMIT _) hsorted
    refine htake.imp ?_
    intro a b hab
    simpa [newestFirst] using hab
  · rw [hres, List.length_reverse, List.length_take, hperm.length_eq]
  · intro m hm
    rw [hres, List.mem_reverse] at hm
    exact hperm.mem_iff.mp ((List.take_sublist _ _).subset hm)
  · intro m hmrel hmnot r hr
    rw [hres, List.mem_reverse] at hmnot hr
    have hmsorted := hperm.mem_iff.mpr hmrel
    rw [← List.take_append_drop MESSAGE_HISTORY_LIMIT
      ((db.filter (fun m2 => m2.chat = chatDbId)).mergeSort newestFirst),
      List.mem_append] at hmsorted
    have hmdrop : m ∈ ((db.filter (fun m2 => m2.chat = chatDbId)).mergeSort
        newestFirst).drop MESSAGE_HISTORY_LIMIT := by
      rcases hmsorted with h | h
      · exact absurd h hmnot
      · exact h
    have hsplit := hsorted
    rw [← List.take_append_drop MESSAGE_HISTORY_LIMIT
      ((db.filter (fun m2 => m2.chat = chatDbId)).mergeSort newestFirst)] at hsplit
    obtain ⟨_, _, hcross⟩ := List.pairwise_append.mp hsplit
    have := hcross r hr m hmdrop
    simpa [newestFirst] using this

/-- C8 witness: the contract instantiated on a concrete message
collection. -/
theorem getRecentMessages_contract_witness :
    List.Pairwise (fun a b => a.createdAt ≤ b.createdAt)
      (getRecentMessages exampleMessages "c1") ∧
    (getRecentMessages exampleMessages "c1").length =
      min MESSAGE_HISTORY_LIMIT
        (exampleMessages.filter (fun m2 => m2.chat = "c1")).length :=
  ⟨(getRecentMessages_contract exampleMessages "c1").1,
   (getRecentMessages_contract exampleMessages "c1").2.1⟩

/-! ## Claim C3: persisted-offline and offline-broadcast discipline -/

theorem stepJoinRoom_usersDb (s : Sys) (sock name rid : String) (now : Nat) :
    (stepJoinRoom s sock name rid now).1.usersDb = s.usersDb := by
  unfold stepJoinRoom
  split
  · rfl
  · split
    · rfl
    · dsimp only
      split
      · rw [joinRespond_frame, (join_frame _ _ _ _ _ _).2.1, (leave_frame s sock).2.1]
      · split
        · rw [(leave_frame s sock).2.1]
        · rw [joinRespond_frame, (join_frame _ _ _ _ _ _).2.1, (leave_frame s sock).2.1]

theorem stepJoinDirect_usersDb (s : Sys) (sock roomId : String) :
    (stepJoinDirect s sock roomId).1.usersDb = s.usersDb := by
  unfold stepJoinDirect
  split
  · rfl
  · split
    · rfl
    · dsimp only
      split
      · rw [(leave_frame s sock).2.1]
      · split
        · rw [(leave_frame s sock).2.1]
        · split
          · rw [(leave_frame s sock).2.1]
          · split
            · rw [(leave_frame s sock).2.1]
            · split
              · rw [(leave_frame s sock).2.1]
              · split
                · rw [(leave_frame s sock).2.1]
                · rw [joinRespond_frame, (join_frame _ _ _ _ _ _).2.1,
                    (leave_frame s sock).2.1]

theorem stepInitiateDm_usersDb (s : Sys) (sock target rid : String) (now : Nat) :
    (stepInitiateDm s sock target rid now).1.usersDb = s.usersDb := by
  unfold stepInitiateDm
  split
  · rfl
  · split
    · rfl
    · split
      · rfl
      · split
        · rfl
        · split
          · rfl
          · rw [joinRespond_frame, (join_frame _ _ _ _ _ _).2.1, (leave_frame _ _).2.1]

theorem stepChatMessage_usersDb (s : Sys) (sock cty cid text : String) (now : Nat) :
    (stepChatMessage s sock cty cid text now).1.usersDb = s.usersDb := by
  unfold stepChatMessage
  split
  · rfl
  · split
    · rfl
    · split
      · rfl
      · dsimp only
        split
        · rfl
        · split
          · rfl
          · rfl

theorem stepConnect_statusOf (s : Sys) (sock u0 : String) (now : Nat) (x : String)
    (h : statusOf (stepConnect s sock u0 now).1 x = some "offline") :
    statusOf s x = some "offline" := by
  unfold stepConnect at h
  split at h
  · exact h
  · split at h
    · exact h
    · rename_i doc hdoc
      dsimp only at h
      simp only [eq_self_iff_true, ite_true] at h
      split at h
      · simp only [statusOf] at h ⊢
        by_cases hx : x = u0
        · rw [hx] at h
          simp at h
        · simpa [hx] using h
      · exact h

theorem stepSetStatus_statusOf (s : Sys) (sock st msg : String) (now : Nat) (x : String)
    (h : statusOf (stepSetStatus s sock st msg now).1 x = some "offline") :
    statusOf s x = some "offline" := by
  unfold stepSetStatus at h
  split at h
  · exact h
  · rename_i sd hcs
    by_cases hst : st = ""
    · rw [if_pos hst] at h
      exact h
    · rw [if_neg hst] at h
      rcases hdoc : s.usersDb sd.userId with _ | doc
      · simp only [hdoc] at h
        exact h
      · simp only [hdoc] at h
        by_cases hx : x = sd.userId
        · subst hx
          simp [statusOf] at h
          by_cases hcont : st ∈ validStatuses
          · rw [if_pos hcont] at h
            rw [h] at hcont
            exact absurd hcont (by decide)
          · rw [if_neg hcont] at h
            exact absurd h (by decide)
        · simp only [statusOf] at h ⊢
          simp only [if_neg hx] at h
          exact h

theorem stepDisconnect_statusOf (s : Sys) (sock : String) (now : Nat) (x : String)
    (h : statusOf (stepDisconnect s sock now).1 x = some "offline") :
    statusOf s x = some "offline" ∨
      ∃ sd, s.connectedSockets sock = some sd ∧ sd.userId = x ∧
        s.userSockets x ≠ ∅ ∧ (s.userSockets x).erase sock = ∅ := by
  have hus := (leave_frame s sock).2.2.1
  have hud := (leave_frame s sock).2.1
  unfold stepDisconnect at h
  split at h
  · exact Or.inl h
  · rename_i sd hcs
    dsimp only at h
    split at h
    · rename_i hlast
      rw [hus] at hlast
      split at h
      · rename_i doc hdoc
        by_cases hx : x = sd.userId
        · subst hx
          exact Or.inr ⟨sd, hcs, rfl, hlast.1, hlast.2⟩
        · left
          simp only [statusOf] at h ⊢
          simp only [if_neg hx] at h
          rw [hud] at h
          exact h
      · left
        rw [statusOf, hud] at h
        exact h
    · left
      rw [statusOf, hud] at h
      exact h

theorem stepConnect_no_offline (s : Sys) (sock u : String) (now : Nat)
    (u' : String) (tg : Finset String) :
    Ev.presence u' "offline" tg ∉ (stepConnect s sock u now).2 := by
  unfold stepConnect
  split
  · simp
  · split
    · simp
    · dsimp only
      simp only [eq_self_iff_true, ite_true]
      split
      · simp
      · simp

theorem stepSetStatus_no_offline (s : Sys) (sock st msg : String) (now : Nat)
    (u' : String) (tg : Finset String) :
    Ev.presence u' "offline" tg ∉ (stepSetStatus s sock st msg now).2 := by
  unfold stepSetStatus
  split
  · simp
  · rename_i sd hcs
    by_cases hst : st = ""
    · rw [if_pos hst]
      simp
    · rw [if_neg hst]
      rcases hdoc : s.usersDb sd.userId with _ | doc
      · simp only [hdoc]
        simp
      · simp only [hdoc]
        simp only [List.mem_singleton]
        intro hmem
        have e2 : "offline" = (if validStatuses.contains st = true then st else "online") := by
          injection hmem
        by_cases hcont : validStatuses.contains st = true
        · rw [if_pos hcont] at e2
          rw [← e2] at hcont
          exact absurd hcont (by decide)
        · rw [if_neg hcont] at e2
          exact absurd e2 (by decide)

theorem no_presence_dmListEvents (us : String → Finset String) (l : List String)
    (u st : String) (tg : Finset String) :
    Ev.presence u st tg ∉
      l.filterMap (fun p => if us p ≠ ∅ then some (Ev.dmListUpdate p) else none) := by
  simp only [List.mem_filterMap]
  rintro ⟨p, hp, hsome⟩
  split at hsome
  · exact Ev.noConfusion (Option.some.inj hsome)
  · exact Option.noConfusion hsome

theorem stepChatMessage_no_presence (s : Sys) (sock cty cid text : String) (now : Nat)
    (u st : String) (tg : Finset String) :
    Ev.presence u st tg ∉ (stepChatMessage s sock cty cid text now).2 := by
  unfold stepChatMessage
  split
  · simp
  · split
    · simp
    · split
      · simp
      · by_cases hlen : text.trim = "" ∨ MAX_MESSAGE_LENGTH < text.trim.length
        · rw [if_pos hlen]
          simp
        · rw [if_neg hlen]
          dsimp only
          split
          · simp
          · simp only [List.singleton_append, List.mem_cons, not_or]
            refine ⟨by simp, ?_⟩
            split
            · split
              · intro hmem
                simp only [List.mem_filterMap] at hmem
                obtain ⟨p, hp, hsome⟩ := hmem
                split at hsome
                · exact Ev.noConfusion (Option.some.inj hsome)
                · exact Option.noConfusion hsome
              · simp
            · simp

theorem stepJoinRoom_no_presence (s : Sys) (sock name rid : String) (now : Nat)
    (u st : String) (tg : Finset String) :
    Ev.presence u st tg ∉ (stepJoinRoom s sock name rid now).2 := by
  unfold stepJoinRoom
  split
  · simp
  · split
    · simp
    · dsimp only
      split
      · simp only [List.mem_append, not_or]
        exact ⟨leave_events_no_presence s sock u st tg,
          joinRespond_events_no_presence _ _ _ _ _ _ _ _ _ _⟩
      · split
        · simp only [List.mem_append, List.mem_singleton, not_or]
          exact ⟨leave_events_no_presence s sock u st tg, by simp⟩
        · simp only [List.mem_append, not_or]
          exact ⟨leave_events_no_presence s sock u st tg,
            joinRespond_events_no_presence _ _ _ _ _ _ _ _ _ _⟩

theorem stepJoinDirect_no_presence (s : Sys) (sock roomId : String)
    (u st : String) (tg : Finset String) :
    Ev.presence u st tg ∉ (stepJoinDirect s sock roomId).2 := by
  unfold stepJoinDirect
  split
  · simp
  · split
    · simp
    · dsimp only
      split
      · simp only [List.mem_append, List.mem_singleton, not_or]
        exact ⟨leave_events_no_presence s sock u st tg, by simp⟩
      · split
        · simp only [List.mem_append, List.mem_singleton, not_or]
          exact ⟨leave_events_no_presence s sock u st tg, by simp⟩
        · split
          · simp only [List.mem_append, List.mem_singleton, not_or]
            exact ⟨leave_events_no_presence s sock u st tg, by simp⟩
          · split
            · simp only [List.mem_append, List.mem_singleton, not_or]
              exact ⟨leave_events_no_presence s sock u st tg, by simp⟩
            · split
              · simp only [List.mem_append, List.mem_singleton, not_or]
                exact ⟨leave_events_no_presence s sock u st tg, by simp⟩
              · split
                · simp only [List.mem_append, List.mem_singleton, not_or]
                  exact ⟨leave_events_no_presence s sock u st tg, by simp⟩
                · simp only [List.mem_append, not_or]
                  exact ⟨leave_events_no_presence s sock u st tg,
                    joinRespond_events_no_presence _ _ _ _ _ _ _ _ _ _⟩

theorem stepInitiateDm_no_presence (s : Sys) (sock target rid : String) (now : Nat)
    (u st : String) (tg : Finset String) :
    Ev.presence u st tg ∉ (stepInitiateDm s sock target rid now).2 := by
  unfold stepInitiateDm
  split
  · simp
  · split
    · simp
    · split
      · simp
      · split
        · simp
        · split
          · simp
          · dsimp only
            simp only [List.mem_append, not_or]
            refine ⟨⟨leave_events_no_presence _ _ u st tg,
              joinRespond_events_no_presence _ _ _ _ _ _ _ _ _ _⟩, ?_⟩
            split
            · simp
            · simp

theorem stepDisconnect_offline_events (s : Sys) (sock : String) (now : Nat)
    (sd : SocketData) (doc : UserDoc)
    (hcs : s.connectedSockets sock = some sd)
    (hdoc : s.usersDb sd.userId = some doc)
    (hne : s.userSockets sd.userId ≠ ∅)
    (hlast : (s.userSockets sd.userId).erase sock = ∅) :
    (stepDisconnect s sock now).2 =
      (leaveCurrentChat s sock).2 ++
        [Ev.presence sd.userId "offline"
          (usersToNotify (leaveCurrentChat s sock).1.activeChats sd.userId)] := by
  have hus := (leave_frame s sock).2.2.1
  have hud := (leave_frame s sock).2.1
  unfold stepDisconnect
  rw [hcs]
  dsimp only
  rw [hus, if_pos (And.intro hne hlast), hud, hdoc]

/-- C3: the persisted status becomes `offline` only through the removal of
an identity's last live connection (no other event — in particular no
set-status request, whose accepted values exclude `offline` — ever writes
it); an offline presence broadcast can only originate from a disconnect;
and the disconnect of a last connection (of an identity still present in
the user store) emits exactly the leave emissions — which contain no
presence broadcast — followed by exactly one `offline` presence broadcast,
targeted at exactly the identities sharing at least one active conversation
with the disconnecting identity at that moment (the post-cleanup state the
broadcast reads). -/
theorem offline_status_contract :
    (∀ s : Sys, ∀ op : Op, ∀ u : String,
       statusOf (step s op).1 u = some "offline" →
       statusOf s u = some "offline" ∨
         ∃ sock now sd, op = Op.disconnect sock now ∧
           s.connectedSockets sock = some sd ∧ sd.userId = u ∧
           s.userSockets u ≠ ∅ ∧ (s.userSockets u).erase sock = ∅) ∧
    (∀ s : Sys, ∀ op : Op, ∀ u : String, ∀ tg : Finset String,
       Ev.presence u "offline" tg ∈ (step s op).2 →
       ∃ sock now, op = Op.disconnect sock now) ∧
    (∀ s : Sys, ∀ sock : String, ∀ now : Nat, ∀ sd : SocketData, ∀ doc : UserDoc,
       s.connectedSockets sock = some sd →
       s.usersDb sd.userId = some doc →
       s.userSockets sd.userId ≠ ∅ →
       (s.userSockets sd.userId).erase sock = ∅ →
       (stepDisconnect s sock now).2 =
         (leaveCurrentChat s sock).2 ++
           [Ev.presence sd.userId "offline"
             (usersToNotify (leaveCurrentChat s sock).1.activeChats sd.userId)] ∧
       (∀ u' st' : String, ∀ tg' : Finset String,
          Ev.presence u' st' tg' ∉ (leaveCurrentChat s sock).2) ∧
       (∀ v, v ∈ usersToNotify (leaveCurrentChat s sock).1.activeChats sd.userId ↔
          v ≠ sd.userId ∧ ∃ p, p ∈ (leaveCurrentChat s sock).1.activeChats ∧
            sd.userId ∈ p.2.members ∧ v ∈ p.2.members)) := by
  refine ⟨?_, ?_, ?_⟩
  · intro s op u h
    cases op with
    | connect sock u0 now => exact Or.inl (stepConnect_statusOf s sock u0 now u h)
    | joinRoom sock name rid now =>
      left
      have h2 : statusOf (stepJoinRoom s sock name rid now).1 u = some "offline" := h
      rw [statusOf, stepJoinRoom_usersDb] at h2
      exact h2
    | joinDirect sock roomId =>
      left
      have h2 : statusOf (stepJoinDirect s sock roomId).1 u = some "offline" := h
      rw [statusOf, stepJoinDirect_usersDb] at h2
      exact h2
    | initiateDm sock target rid now =>
      left
      have h2 : statusOf (stepInitiateDm s sock target rid now).1 u = some "offline" := h
      rw [statusOf, stepInitiateDm_usersDb] at h2
      exact h2
    | chatMessage sock cty cid text now =>
      left
      have h2 : statusOf (stepChatMessage s sock cty cid text now).1 u = some "offline" := h
      rw [statusOf, stepChatMessage_usersDb] at h2
      exact h2
    | setStatus sock st msg now => exact Or.inl (stepSetStatus_statusOf s sock st msg now u h)
    | disconnect sock now =>
      rcases stepDisconnect_statusOf s sock now u h with h0 | ⟨sd, h1, h2, h3, h4⟩
      · exact Or.inl h0
      · exact Or.inr ⟨sock, now, sd, rfl, h1, h2, h3, h4⟩
  · intro s op u tg h
    cases op with
    | connect sock u0 now => exact absurd h (stepConnect_no_offline s sock u0 now u tg)
    | joinRoom sock name rid now =>
      exact absurd h (stepJoinRoom_no_presence s sock name rid now u "offline" tg)
    | joinDirect sock roomId =>
      exact absurd h (stepJoinDirect_no_presence s sock roomId u "offline" tg)
    | initiateDm sock target rid now =>
      exact absurd h (stepInitiateDm_no_presence s sock target rid now u "offline" tg)
    | chatMessage sock cty cid text now =>
      exact absurd h (stepChatMessage_no_presence s sock cty cid text now u "offline" tg)
    | setStatus sock st msg now =>
      exact absurd h (stepSetStatus_no_offline s sock st msg now u tg)
    | disconnect sock now => exact ⟨sock, now, rfl⟩
  · intro s sock now sd doc hcs hdoc hne hlast
    refine ⟨stepDisconnect_offline_events s sock now sd doc hcs hdoc hne hlast, ?_, ?_⟩
    · intro u' st' tg'
      exact leave_events_no_presence s sock u' st' tg'
    · intro v
      exact mem_usersToNotify (leaveCurrentChat s sock).1.activeChats sd.userId v

/-- C3 witness: disconnecting the only connection of an identity emits
exactly the (empty) leave emissions plus one offline broadcast, and its
persisted status flips to `offline`. -/
theorem offline_status_contract_witness :
    (stepDisconnect oneConnState "s1" 5).2 =
      (leaveCurrentChat oneConnState "s1").2 ++
        [Ev.presence "aaaaaaaaaaaaaaaaaaaaaaaa" "offline"
          (usersToNotify (leaveCurrentChat oneConnState "s1").1.activeChats
            "aaaaaaaaaaaaaaaaaaaaaaaa")] :=
  (offline_status_contract.2.2 oneConnState "s1" 5
    { userId := "aaaaaaaaaaaaaaaaaaaaaaaa", cachedStatus := "offline", currentChat := none }
    { username := "alice", status := "online", statusMessage := "", lastSeen := 0 }
    (by decide) (by decide) (by decide) (by decide)).1
